import Mathlib

/-!
Verification of the packsyncr-workers file-upload pipeline
(`src/workers/resource-handler/files.js`, `resources.js`, `resource-handler.js`).

The JavaScript is shallowly embedded: strings are `List Char`, the incoming
multipart body stream is a list of already-decoded text chunks, byte buffers
are `List Nat`, and the two external stores (R2 blob store, D1 relational
store) are modelled by an `Env` of fault-injection oracles together with an
explicit trace of store events.  Machine arithmetic does not occur (JS numbers
here are small non-negative integers), so `Nat` is used throughout.
-/

namespace PackSyncr

/-- Strings of the JS source, modelled as lists of characters. -/
abbrev Str := List Char

/-- `isPrefixL p s` is true iff `p` is a prefix of `s` (used to model
`String.prototype.indexOf` position tests). -/
def isPrefixL : Str → Str → Bool
  | [], _ => true
  | _ :: _, [] => false
  | a :: as, b :: bs => a == b && isPrefixL as bs

/-- Tail-recursive worker for `indexOf?` (the accumulator keeps reduction
iterative so that large concrete buffers evaluate without deep recursion). -/
def indexOfAux (p : Str) : Str → Nat → Option Nat
  | s, i =>
    if isPrefixL p s then some i
    else
      match s with
      | [] => none
      | _ :: t => indexOfAux p t (i + 1)

/-- `indexOf? p s` models JS `s.indexOf(p)`: the first index at which `p`
occurs in `s`, or `none` (JS `-1`). -/
def indexOf? (p s : Str) : Option Nat := indexOfAux p s 0

/-- Tail-recursive list length (`lenL l = l.length`, proved below); used where
the code takes `.length` of a possibly large buffer. -/
def lenLAux : List α → Nat → Nat
  | [], n => n
  | _ :: t, n => lenLAux t (n + 1)

/-- JS `s.length` for buffers. -/
def lenL (l : List α) : Nat := lenLAux l 0


/-- Whitespace characters removed by JS `String.prototype.trim` (the ASCII
ones plus NBSP and BOM; other Unicode space characters do not occur in the
inputs considered here). -/
def isJsWS (c : Char) : Bool :=
  c == ' ' || c == '\t' || c == '\n' || c == '\r' ||
  c == '\x0b' || c == '\x0c' || c == ' ' || c == '﻿'

/-- JS `s.trim()`: strip leading and trailing whitespace. -/
def trimL (s : Str) : Str :=
  ((s.dropWhile isJsWS).reverse.dropWhile isJsWS).reverse

/-- One attempt of the regex `/\r?\n\r?\n/` at the start of `s`: returns the
length matched by the backtracking regex engine, if any.  The alternatives are
tried in the engine's greedy backtracking order. -/
def matchAt (s : Str) : Option Nat :=
  if isPrefixL ['\r', '\n', '\r', '\n'] s then some 4
  else if isPrefixL ['\r', '\n', '\n'] s then some 3
  else if isPrefixL ['\n', '\r', '\n'] s then some 3
  else if isPrefixL ['\n', '\n'] s then some 2
  else none

/-- Tail-recursive worker for `findBlank?` (on the empty string the regex
cannot match, so the empty case returns `none` directly). -/
def findBlankAux : Str → Nat → Option (Nat × Nat)
  | [], _ => none
  | c :: t, i =>
    match matchAt (c :: t) with
    | some l => some (i, l)
    | none => findBlankAux t (i + 1)

/-- JS `s.match(/\r?\n\r?\n/)`: index and length of the leftmost match. -/
def findBlank? (s : Str) : Option (Nat × Nat) := findBlankAux s 0

/-- Concatenation of a list of lists (JS `concatMany` / flattening). -/
def concatL : List (List α) → List α
  | [] => []
  | l :: ls => l ++ concatL ls

/-- UTF-8 encoding of one character (what `TextEncoder` produces). -/
def encodeChar (c : Char) : List Nat :=
  let n := c.toNat
  if n < 0x80 then [n]
  else if n < 0x800 then [0xC0 + n / 64, 0x80 + n % 64]
  else if n < 0x10000 then [0xE0 + n / 4096, 0x80 + (n / 64) % 64, 0x80 + n % 64]
  else [0xF0 + n / 262144, 0x80 + (n / 4096) % 64, 0x80 + (n / 64) % 64, 0x80 + n % 64]

/-- JS `new TextEncoder().encode(s)` as a list of byte values. -/
def encodeUtf8 (s : Str) : List Nat := concatL (s.map encodeChar)

/-- Is `b` a UTF-8 continuation byte. -/
def isCont (b : Nat) : Bool := 0x80 ≤ b && b ≤ 0xBF

/-- The replacement character U+FFFD emitted by `TextDecoder` on bad input. -/
def replChar : Char := Char.ofNat 0xFFFD

/-- Fuelled UTF-8 decoding loop; the fuel is an upper bound on the number of
bytes left, so `decodeUtf8` below always supplies enough. -/
def decodeUtf8Go : Nat → List Nat → Str
  | 0, _ => []
  | _, [] => []
  | fuel + 1, b1 :: rest =>
    if b1 < 0x80 then Char.ofNat b1 :: decodeUtf8Go fuel rest
    else if 0xC2 ≤ b1 && b1 ≤ 0xDF then
      match rest with
      | b2 :: rest2 =>
        if isCont b2 then Char.ofNat ((b1 - 0xC0) * 64 + (b2 - 0x80)) :: decodeUtf8Go fuel rest2
        else replChar :: decodeUtf8Go fuel rest
      | [] => [replChar]
    else if 0xE0 ≤ b1 && b1 ≤ 0xEF then
      match rest with
      | b2 :: b3 :: rest3 =>
        if (if b1 == 0xE0 then 0xA0 ≤ b2 && b2 ≤ 0xBF
            else if b1 == 0xED then 0x80 ≤ b2 && b2 ≤ 0x9F
            else isCont b2) && isCont b3 then
          Char.ofNat ((b1 - 0xE0) * 4096 + (b2 - 0x80) * 64 + (b3 - 0x80)) :: decodeUtf8Go fuel rest3
        else replChar :: decodeUtf8Go fuel rest
      | _ => replChar :: decodeUtf8Go fuel rest
    else if 0xF0 ≤ b1 && b1 ≤ 0xF4 then
      match rest with
      | b2 :: b3 :: b4 :: rest4 =>
        if (if b1 == 0xF0 then 0x90 ≤ b2 && b2 ≤ 0xBF
            else if b1 == 0xF4 then 0x80 ≤ b2 && b2 ≤ 0x8F
            else isCont b2) && isCont b3 && isCont b4 then
          Char.ofNat ((b1 - 0xF0) * 262144 + (b2 - 0x80) * 4096 + (b3 - 0x80) * 64 + (b4 - 0x80))
            :: decodeUtf8Go fuel rest4
        else replChar :: decodeUtf8Go fuel rest
      | _ => replChar :: decodeUtf8Go fuel rest
    else replChar :: decodeUtf8Go fuel rest

/-- JS `new TextDecoder().decode(bytes)`. -/
def decodeUtf8 (bs : List Nat) : Str := decodeUtf8Go bs.length bs

/-! ## Constants and multipart scanner state (`files.js`, lines 17-18, 24-26) -/

/-- `MAX_FILE_SIZE = 2 * 1024 * 1024` (2 MB ceiling, `files.js` line 17). -/
def MAX_FILE_SIZE : Nat := 2 * 1024 * 1024

/-- `BUFFER_SIZE = 2 * 1024` (2 KB window, `files.js` line 18). -/
def BUFFER_SIZE : Nat := 2 * 1024

/-- The mutable `state.buffer` threaded through the readers together with the
chunks still to be delivered by `reader.read()`. -/
structure ScanState where
  buffer : Str
  chunks : List Str
  deriving DecidableEq, Repr

/-- The part-header marker `` name="<fieldName>" `` searched for by both
readers. -/
def targetHeader (fieldName : Str) : Str :=
  ([]: Str) ++ ("name=\x22").toList ++ fieldName ++ ("\x22").toList

/-- Trim the buffer to the window: `state.buffer = state.buffer.slice(-BUFFER_SIZE)`
when it exceeds `BUFFER_SIZE` (`files.js` lines 104-107, 188-191). -/
def trimWindow (buffer : Str) : Str :=
  if BUFFER_SIZE < lenL buffer then buffer.drop (lenL buffer - BUFFER_SIZE) else buffer

/-- One search attempt over the current buffer (`files.js` lines 85-101):
find the part header, then the first blank line after it, then the next
boundary; on success return the trimmed value and the new buffer (everything
from the boundary on). -/
def searchField (boundary tgt buffer : Str) : Option (Str × Str) :=
  match indexOf? tgt buffer with
  | none => none
  | some headerIndex =>
    let afterHeader := buffer.drop headerIndex
    match findBlank? afterHeader with
    | none => none
    | some ml =>
      let contentRest := afterHeader.drop (ml.1 + ml.2)
      match indexOf? boundary contentRest with
      | none => none
      | some boundaryIndex =>
        some (trimL (contentRest.take boundaryIndex), contentRest.drop boundaryIndex)

/-- The `while (true)` loop of `getMultipartField` (`files.js` lines 84-115):
search the buffer, else trim it to the window and pull the next chunk;
`none` models exhausting the source with no value found. -/
def gmfLoop (boundary tgt : Str) : List Str → Str → Option (Str × ScanState)
  | [], buffer =>
    match searchField boundary tgt buffer with
    | some vr => some (vr.1, ⟨vr.2, []⟩)
    | none => none
  | c :: cs, buffer =>
    match searchField boundary tgt buffer with
    | some vr => some (vr.1, ⟨vr.2, c :: cs⟩)
    | none => gmfLoop boundary tgt cs (trimWindow buffer ++ c)

/-- The error message `missing_<fieldName>` (`files.js` line 118). -/
def missingMsg (fieldName : Str) : String := "missing_" ++ String.mk fieldName

/-- `getMultipartField` (`files.js` lines 79-122).  Note the final test is the
JS falsy check `if (!fieldValue)`, which also rejects an empty string value. -/
def getMultipartField (boundary fieldName : Str) (st : ScanState) :
    Except String (Str × ScanState) :=
  match gmfLoop boundary (targetHeader fieldName) st.chunks st.buffer with
  | some vst => if vst.1 = [] then .error (missingMsg fieldName) else .ok vst
  | none => .error (missingMsg fieldName)

/-! ## Multipart file extractor (`files.js`, lines 127-212) -/

/-- The accumulator of the extractor loop: running byte counter, sniff prefix
(first 32 bytes) and the recorded byte chunks. -/
structure ExtractAcc where
  bytesRead : Nat
  magic : List Nat
  fileChunks : List (List Nat)
  deriving DecidableEq, Repr

/-- `chunkText` of one extractor iteration (`files.js` lines 159-163): the
buffered content up to the boundary, or all of it when no boundary is seen. -/
def chunkTextOf (boundary contentRest : Str) : Str :=
  match indexOf? boundary contentRest with
  | some boundaryIndex => contentRest.take boundaryIndex
  | none => contentRest

/-- The header search of one extractor iteration (`files.js` lines 139-154):
when the file part has not started, look for the part header and its blank
line; on success the returned string is the content after the blank line, and
once started the whole buffer is content. -/
def headerScan (tgt : Str) (buffer : Str) (fileStarted : Bool) : Option Str :=
  if fileStarted then some buffer
  else
    match indexOf? tgt buffer with
    | some headerIndex =>
      match findBlank? (buffer.drop headerIndex) with
      | some ml => some ((buffer.drop headerIndex).drop (ml.1 + ml.2))
      | none => none
    | none => none

/-- One iteration of the `extractAndVerifyFile` loop before the next read
(`files.js` lines 138-191): header search (when the file has not started),
byte recording with the size ceiling check, and the window trim.  Returns the
new `fileStarted` flag, accumulator and buffer. -/
def extractStep (boundary tgt : Str) (buffer : Str) (fileStarted : Bool) (acc : ExtractAcc) :
    Except String (Bool × ExtractAcc × Str) :=
  match headerScan tgt buffer fileStarted with
  | some contentRest =>
    let chunkBytes := encodeUtf8 (chunkTextOf boundary contentRest)
    let magic2 :=
      if acc.magic.length < 32 then acc.magic ++ chunkBytes.take (32 - acc.magic.length)
      else acc.magic
    let bytes2 := acc.bytesRead + chunkBytes.length
    if MAX_FILE_SIZE < bytes2 then .error ("file_too_large")
    else
      .ok (true, ⟨bytes2, magic2, acc.fileChunks ++ [chunkBytes]⟩,
        trimWindow (contentRest.drop chunkBytes.length))
  | none => .ok (fileStarted, acc, trimWindow buffer)

/-- The `while (true)` loop of `extractAndVerifyFile` (`files.js` lines
137-199): run one step on the buffered text, then pull the next chunk; the
loop ends when the source reports done.  Returns `fileStarted`, the
accumulator and the final buffer, or the `file_too_large` error raised as soon
as the byte counter passes the ceiling. -/
def extractLoop (boundary tgt : Str) :
    List Str → Str → Bool → ExtractAcc → Except String (Bool × ExtractAcc × Str)
  | [], buffer, fileStarted, acc => extractStep boundary tgt buffer fileStarted acc
  | c :: cs, buffer, fileStarted, acc =>
    match extractStep boundary tgt buffer fileStarted acc with
    | .error e => .error e
    | .ok r => extractLoop boundary tgt cs (r.2.2 ++ c) r.1 r.2.1

/-- `verifyMagic` (`files.js` lines 232-251). -/
def verifyMagic (contentType : Str) (bytes : List Nat) : Bool :=
  if contentType = ("image/png").toList then
    decide (8 ≤ bytes.length) && bytes.getD 0 0 == 0x89 && bytes.getD 1 0 == 0x50 &&
      bytes.getD 2 0 == 0x4E && bytes.getD 3 0 == 0x47
  else if contentType = ("application/json").toList then
    let text := trimL (decodeUtf8 bytes)
    (match text with | c :: _ => c == '\x7b' || c == '[' | [] => false)
  else
    false

/-- `extractAndVerifyFile` (`files.js` lines 127-212): run the loop from the
current scanner state, then check the file was found and its sniffed type
matches the declared one. -/
def extractAndVerifyFile (boundary fieldName content_type : Str) (st : ScanState) :
    Except String (List Nat × ScanState) :=
  match extractLoop boundary (targetHeader fieldName) st.chunks st.buffer false ⟨0, [], []⟩ with
  | .error e => .error e
  | .ok r =>
    if r.1 = false then .error (missingMsg fieldName)
    else if verifyMagic content_type r.2.1.magic = false then .error ("file_type_mismatch")
    else .ok (concatL r.2.1.fileChunks, ⟨r.2.2, []⟩)

/-! ## Store model

The outward collaborators (D1 relational store, R2 blob store) are modelled
by an environment of table contents plus fault-injection oracles saying which
store calls throw, and every coordinator returns, next to its result, the
trace of store calls it attempted, in order. -/

/-- A row of the `resources` table (the columns `uploadFile`/`deleteResource`
read). -/
structure Resource where
  resource_uuid : Str
  owner_uuid : Str
  type : Str
  deriving DecidableEq, Repr

/-- A row of the `resource_files` table. -/
structure StoredFile where
  resource_uuid : Str
  file_uuid : Str
  file_directory : Str
  file_name : Str
  r2_key : Str
  content_type : Str
  uploaded_by : Str
  created_at : Nat
  updated_at : Nat
  deriving DecidableEq, Repr

/-- The environment: table contents and which store calls fail.  A failing
R2 `delete` throws an error whose message is `blobDeleteErrMsg` (the platform
error; the code sometimes catches and renames it, sometimes lets it escape). -/
structure Env where
  resources : List Resource
  files : List StoredFile
  putFails : Str → Bool
  insertFails : Bool
  blobDeleteFails : Str → Bool
  blobDeleteErrMsg : String
  rowDeleteFails : Bool
  resourceRowDeleteFails : Bool

/-- One store call, as recorded in the trace (calls are recorded whether or
not they succeed). -/
inductive Event where
  | readField (fieldName : Str)
  | d1FindResource (resource_uuid : Str)
  | extractFile
  | r2Put (key : Str) (bytes : List Nat)
  | d1InsertFile (row : StoredFile)
  | r2Delete (key : Str)
  | d1DeleteFileRow (resource_uuid file_uuid : Str)
  | d1FindFile (resource_uuid file_uuid : Str)
  | d1ListFiles (resource_uuid : Str)
  | d1DeleteResourceRow (resource_uuid : Str)
  | d1UpdateUserCount (uuid : Str)
  deriving DecidableEq, Repr

/-- `fetchResource` (`files.js` lines 67-74): `SELECT * FROM resources WHERE
resource_uuid = ?` then `.first()`. -/
def fetchResource (env : Env) (resource_uuid : Str) : Option Resource :=
  env.resources.find? (fun r => r.resource_uuid == resource_uuid)

/-- `fetchFile` (`files.js` lines 321-328): `SELECT * FROM resource_files
WHERE resource_uuid = ? AND file_uuid = ?` then `.first()`. -/
def fetchFile (env : Env) (resource_uuid file_uuid : Str) : Option StoredFile :=
  env.files.find? (fun f => f.resource_uuid == resource_uuid && f.file_uuid == file_uuid)

/-! ## Upload policy table and policy check (`files.js` lines 4-15, 41-46) -/

/-- The value under one content type in `RESOURCE_RULES`. -/
structure ContentRules where
  allowed_directories : List Str
  deriving DecidableEq, Repr

/-- The value under one resource type in `RESOURCE_RULES`. -/
structure ResourceRules where
  allowed_content_types : List (Str × ContentRules)
  deriving DecidableEq, Repr

/-- `RESOURCE_RULES` (`files.js` lines 4-15). -/
def RESOURCE_RULES : List (Str × ResourceRules) :=
  [(("hat").toList,
    ⟨[(("image/png").toList, ⟨[("textures/item/carved_pumpkin").toList]⟩),
      (("application/json").toList, ⟨[("models/item/carved_pumpkin").toList]⟩)]⟩)]

/-- Key lookup in an object literal (`RESOURCE_RULES[resource.type]`,
`rules.allowed_content_types[content_type]`). -/
def lookupL (m : List (Str × β)) (k : Str) : Option β :=
  match m.find? (fun e => e.1 == k) with
  | some e => some e.2
  | none => none

/-- The three policy checks of `uploadFile` (`files.js` lines 41-46), in
source order. -/
def policyCheck (resourceType content_type file_directory : Str) : Except String Unit :=
  match lookupL RESOURCE_RULES resourceType with
  | none => .error ("undefined_resource_type")
  | some rules =>
    match lookupL rules.allowed_content_types content_type with
    | none => .error ("forbidden_content_type")
    | some contentRules =>
      if contentRules.allowed_directories.contains file_directory then .ok ()
      else .error ("forbidden_file_directory")

/-! ## Upload commit (`uploadFileToR2`, `files.js` lines 256-300) -/

/-- The four field names read by `uploadFile`, and the file part name. -/
def fResourceUuid : Str := ("resource_uuid").toList

def fContentType : Str := ("content_type").toList

def fFileDirectory : Str := ("file_directory").toList

def fFileName : Str := ("file_name").toList

def fFile : Str := ("file").toList

/-- `uploadFileToR2` (`files.js` lines 256-300).  `file_uuid` stands for the
`crypto.randomUUID()` result and `now` for the timestamp.  The R2 put failure
is caught and renamed `r2_upload_failed`; a D1 insert failure triggers the
compensating R2 delete, and note that this delete is NOT inside a try/catch:
if it throws, its own error escapes instead of `d1_upload_failed`. -/
def uploadFileToR2 (env : Env) (requester_uuid : Str) (file_bytes : List Nat)
    (resource_uuid file_directory file_name content_type : Str)
    (file_uuid : Str) (now : Nat) : Except String Unit × List Event :=
  let r2Key := resource_uuid ++ [Char.ofNat 47] ++ file_uuid
  let row : StoredFile :=
    ⟨resource_uuid, file_uuid, file_directory, file_name, r2Key, content_type,
      requester_uuid, now, now⟩
  if env.putFails r2Key then
    (.error ("r2_upload_failed"), [.r2Put r2Key file_bytes])
  else if env.insertFails then
    if env.blobDeleteFails r2Key then
      (.error env.blobDeleteErrMsg, [.r2Put r2Key file_bytes, .d1InsertFile row, .r2Delete r2Key])
    else
      (.error ("d1_upload_failed"), [.r2Put r2Key file_bytes, .d1InsertFile row, .r2Delete r2Key])
  else
    (.ok (), [.r2Put r2Key file_bytes, .d1InsertFile row])

/-! ## Upload coordinator (`uploadFile`, `files.js` lines 23-62) -/

/-- The four `getMultipartField` calls of `uploadFile` (`files.js` lines
29-32), in source order, threading the shared buffer state. -/
def readFields (boundary : Str) (st : ScanState) :
    Except String ((Str × Str × Str × Str) × ScanState) × List Event :=
  match getMultipartField boundary fResourceUuid st with
  | .error e => (.error e, [.readField fResourceUuid])
  | .ok (resource_uuid, st1) =>
    match getMultipartField boundary fContentType st1 with
    | .error e => (.error e, [.readField fResourceUuid, .readField fContentType])
    | .ok (content_type, st2) =>
      match getMultipartField boundary fFileDirectory st2 with
      | .error e =>
        (.error e, [.readField fResourceUuid, .readField fContentType, .readField fFileDirectory])
      | .ok (file_directory, st3) =>
        match getMultipartField boundary fFileName st3 with
        | .error e =>
          (.error e, [.readField fResourceUuid, .readField fContentType,
            .readField fFileDirectory, .readField fFileName])
        | .ok (file_name, st4) =>
          (.ok ((resource_uuid, content_type, file_directory, file_name), st4),
            [.readField fResourceUuid, .readField fContentType,
              .readField fFileDirectory, .readField fFileName])

/-- `uploadFile` (`files.js` lines 23-62): read the four metadata fields, then
fetch the resource, check ownership, run the policy checks, extract and verify
the file, and commit.  Inner errors are rethrown with the same message
(`throw new Error(err.message)`), modelled as plain propagation. -/
def uploadFile (env : Env) (requester_uuid : Str) (chunks : List Str) (boundary : Str)
    (file_uuid : Str) (now : Nat) : Except String Unit × List Event :=
  match readFields boundary ⟨[], chunks⟩ with
  | (.error e, evs) => (.error e, evs)
  | (.ok (fields, st4), evs) =>
    match fetchResource env fields.1 with
    | none => (.error ("resource_not_found"), evs ++ [.d1FindResource fields.1])
    | some resource =>
      if resource.owner_uuid ≠ requester_uuid then
        (.error ("forbidden_action"), evs ++ [.d1FindResource fields.1])
      else
        match policyCheck resource.type fields.2.1 fields.2.2.1 with
        | .error e => (.error e, evs ++ [.d1FindResource fields.1])
        | .ok _ =>
          match extractAndVerifyFile boundary fFile fields.2.1 st4 with
          | .error e => (.error e, evs ++ [.d1FindResource fields.1, .extractFile])
          | .ok (file, _) =>
            let cr := uploadFileToR2 env requester_uuid file fields.1 fields.2.2.1
              fields.2.2.2 fields.2.1 file_uuid now
            (cr.1, evs ++ [.d1FindResource fields.1, .extractFile] ++ cr.2)

/-! ## Deletion paths (`files.js` lines 305-374, `resources.js` lines 109-144) -/

/-- `deleteFileFromR2` (`files.js` lines 333-350): delete the blob first (a
failure is caught and renamed `r2_delete_failed`, aborting before the row),
then delete the relational row (failure renamed `d1_delete_failed`). -/
def deleteFileFromR2 (env : Env) (r2_key resource_uuid file_uuid : Str) :
    Except String Unit × List Event :=
  if env.blobDeleteFails r2_key then
    (.error ("r2_delete_failed"), [.r2Delete r2_key])
  else if env.rowDeleteFails then
    (.error ("d1_delete_failed"), [.r2Delete r2_key, .d1DeleteFileRow resource_uuid file_uuid])
  else
    (.ok (), [.r2Delete r2_key, .d1DeleteFileRow resource_uuid file_uuid])

/-- `deleteFile` (`files.js` lines 305-319): fetch the row, authorize against
its `uploaded_by` column, then delete blob and row. -/
def deleteFile (env : Env) (requester_uuid resource_uuid file_uuid : Str) :
    Except String Unit × List Event :=
  match fetchFile env resource_uuid file_uuid with
  | none => (.error ("file_not_found"), [.d1FindFile resource_uuid file_uuid])
  | some file =>
    if file.uploaded_by ≠ requester_uuid then
      (.error ("forbidden_action"), [.d1FindFile resource_uuid file_uuid])
    else
      let dr := deleteFileFromR2 env file.r2_key resource_uuid file_uuid
      (dr.1, [.d1FindFile resource_uuid file_uuid] ++ dr.2)

/-- The `for (const file of files.results)` sweep of `deleteResourceFiles`
(`files.js` lines 367-373): stop at the first failure. -/
def deleteSweep (env : Env) (resource_uuid : Str) : List StoredFile → Except String Unit × List Event
  | [] => (.ok (), [])
  | file :: rest =>
    match deleteFileFromR2 env file.r2_key resource_uuid file.file_uuid with
    | (.error e, evs) => (.error e, evs)
    | (.ok _, evs) =>
      let r := deleteSweep env resource_uuid rest
      (r.1, evs ++ r.2)

/-- `deleteResourceFiles` (`files.js` lines 355-374): list the resource's
rows, return early when there are none, else sweep. -/
def deleteResourceFiles (env : Env) (resource_uuid : Str) : Except String Unit × List Event :=
  let files := env.files.filter (fun f => f.resource_uuid == resource_uuid)
  if files.isEmpty then (.ok (), [.d1ListFiles resource_uuid])
  else
    let r := deleteSweep env resource_uuid files
    (r.1, [.d1ListFiles resource_uuid] ++ r.2)

/-- `deleteResource` (`resources.js` lines 109-144): fetch and authorize the
resource, delete all its files, then the resource row, then decrement the
owner's counter. -/
def deleteResource (env : Env) (resource_uuid requester_uuid : Str) :
    Except String Unit × List Event :=
  match fetchResource env resource_uuid with
  | none => (.error ("resource_not_found"), [.d1FindResource resource_uuid])
  | some resource =>
    if resource.owner_uuid ≠ requester_uuid then
      (.error ("forbidden_action"), [.d1FindResource resource_uuid])
    else
      match deleteResourceFiles env resource_uuid with
      | (.error e, evs) => (.error e, [.d1FindResource resource_uuid] ++ evs)
      | (.ok _, evs) =>
        if env.resourceRowDeleteFails then
          (.error ("resource_delete_failed"),
            [.d1FindResource resource_uuid] ++ evs ++ [.d1DeleteResourceRow resource_uuid])
        else
          (.ok (),
            [.d1FindResource resource_uuid] ++ evs ++
              [.d1DeleteResourceRow resource_uuid, .d1UpdateUserCount requester_uuid])

/-! ## HTTP handler surface for `/upload-file`
(`resource-handler.js` lines 450-518) -/

/-- The response object (status and serialized JSON body). -/
structure HandlerResponse where
  status : Nat
  body : String
  deriving DecidableEq, Repr

/-- The error-to-status mapping of `handleUploadFile`
(`resource-handler.js` lines 489-505). -/
def statusFor (e : String) : Nat :=
  if e = "invalid_body" then 400
  else if e = "missing_resource_uuid" then 400
  else if e = "missing_file_directory" then 400
  else if e = "missing_file_name" then 400
  else if e = "missing_content_type" then 400
  else if e = "missing_file" then 400
  else if e = "file_type_mismatch" then 400
  else if e = "forbidden_action" then 403
  else if e = "forbidden_content_type" then 403
  else if e = "forbidden_file_directory" then 403
  else if e = "resource_not_found" then 404
  else if e = "file_too_large" then 413
  else 500

/-- The tail of `handleUploadFile` (`resource-handler.js` lines 484-517):
`testString = await uploadFile(...)`, error mapping, and on success the
response `JSON.stringify({ success: testString })` with status 201.  Since
`uploadFile` returns no value, `testString` is `undefined` and
`JSON.stringify({ success: undefined })` is the two-character string of an
empty JSON object. -/
def handleUploadFile (env : Env) (requester_uuid : Str) (chunks : List Str) (boundary : Str)
    (file_uuid : Str) (now : Nat) : HandlerResponse × List Event :=
  let r := uploadFile env requester_uuid chunks boundary file_uuid now
  match r.1 with
  | .error e => (⟨statusFor e, "\x7b\x22error\x22:\x22" ++ e ++ "\x22\x7d"⟩, r.2)
  | .ok _ => (⟨201, "\x7b\x7d"⟩, r.2)

/-! ## Spec-side definition for the sniffer claim -/

/-- The content-type sniffer as worded by the spec (section 4.4), to be
compared against the source's `verifyMagic`: `image/png` iff the prefix has
at least 8 bytes and its first four bytes are `0x89 0x50 0x4E 0x47`;
`application/json` iff the prefix decoded as text and trimmed starts with a
left brace or a left bracket; any other declared type is false. -/
def sniffSpec (declared : Str) (prefixBytes : List Nat) : Bool :=
  if declared = ("image/png").toList then
    decide (8 ≤ prefixBytes.length) && prefixBytes.take 4 == [0x89, 0x50, 0x4E, 0x47]
  else if declared = ("application/json").toList then
    match trimL (decodeUtf8 prefixBytes) with
    | c :: _ => c == '\x7b' || c == '['
    | [] => false
  else false

/-! ## Concrete sample inputs used by witnesses and counterexamples -/

/-- A boundary as the handler builds it: `"--" + token` with token `B`. -/
def bdyS : Str := ("--B").toList

/-- A well-formed upload body: the four metadata fields in order, then a JSON
file payload, all in one part-per-line multipart layout. -/
def bodyS : Str :=
  ("--B\r\nContent-Disposition: form-data; name=\x22resource_uuid\x22\r\n\r\nr1\r\n--B\r\nContent-Disposition: form-data; name=\x22content_type\x22\r\n\r\napplication/json\r\n--B\r\nContent-Disposition: form-data; name=\x22file_directory\x22\r\n\r\nmodels/item/carved_pumpkin\r\n--B\r\nContent-Disposition: form-data; name=\x22file_name\x22\r\n\r\nm.json\r\n--B\r\nContent-Disposition: form-data; name=\x22file\x22\r\n\r\n\x7b\x7d\r\n--B--").toList

/-- Requester who owns the sample resource. -/
def uOwner : Str := ("u1").toList

/-- The sample resource row `r1`, owned by `u1`, of type `hat`. -/
def resourceS : Resource := ⟨("r1").toList, uOwner, ("hat").toList⟩

/-- An all-healthy environment holding the sample resource. -/
def envOk : Env :=
  ⟨[resourceS], [], fun _ => false, false, fun _ => false, "r2_delete_exception", false, false⟩

/-- Environment whose D1 insert fails but whose R2 delete works. -/
def envInsFail : Env :=
  ⟨[resourceS], [], fun _ => false, true, fun _ => false, "r2_delete_exception", false, false⟩

/-- Environment whose D1 insert fails and whose R2 delete also throws. -/
def envInsDelFail : Env :=
  ⟨[resourceS], [], fun _ => false, true, fun _ => true, "r2_delete_exception", false, false⟩

/-- A stored file row: file `f1` in resource `r1`, uploaded by `u2`. -/
def fileS : StoredFile :=
  ⟨("r1").toList, ("f1").toList, ("models/item/carved_pumpkin").toList, ("m.json").toList,
    ("r1/f1").toList, ("application/json").toList, ("u2").toList, 5, 5⟩

/-- A healthy environment holding resource `r1` (owned by `u1`) and file `f1`
(uploaded by `u2`). -/
def envFile : Env :=
  ⟨[resourceS], [fileS], fun _ => false, false, fun _ => false, "r2_delete_exception", false, false⟩

/-- Same tables as `envFile` but every R2 delete fails. -/
def envFileDelFail : Env :=
  ⟨[resourceS], [fileS], fun _ => false, false, fun _ => true, "r2_delete_exception", false, false⟩

/-- The header part of the oversized-field body: a part named `f` whose value
is about to follow. -/
def hdrC3 : Str := ("--B\r\nContent-Disposition: form-data; name=\x22f\x22\r\n\r\n").toList

/-- Closing of the oversized-field body. -/
def tailC3 : Str := ("\r\n--B--").toList

/-- First delivered chunk: part header plus the first 2100 characters of a
2110-character value. -/
def c3chunk1 : Str := hdrC3 ++ List.replicate 2100 'a'

/-- Second delivered chunk: the last 10 value characters and the closing
boundary. -/
def c3chunk2 : Str := List.replicate 10 'a' ++ tailC3

/-- The field name `f` of the oversized-field body. -/
def fC3 : Str := ("f").toList

/-- The scanner state left after the four field reads of `bodyS`: the buffer
sits at the boundary opening the `file` part and the source is exhausted. -/
def stS4 : ScanState :=
  ⟨("--B\r\nContent-Disposition: form-data; name=\x22file\x22\r\n\r\n\x7b\x7d\r\n--B--").toList, []⟩

/-- Environment with no resources at all (the resource of any upload is
absent). -/
def envNoResource : Env :=
  ⟨[], [], fun _ => false, false, fun _ => false, "r2_delete_exception", false, false⟩

/-- Environment holding resource `r1` owned by `u1` but of type `cape`, which
the upload policy table does not know. -/
def envBadType : Env :=
  ⟨[⟨("r1").toList, uOwner, ("cape").toList⟩], [], fun _ => false, false, fun _ => false,
    "r2_delete_exception", false, false⟩

/-- Upload body declaring content type `image/gif`, which `hat` does not
allow. -/
def bodyBadCT : Str :=
  ("--B\r\nContent-Disposition: form-data; name=\x22resource_uuid\x22\r\n\r\nr1\r\n--B\r\nContent-Disposition: form-data; name=\x22content_type\x22\r\n\r\nimage/gif\r\n--B\r\nContent-Disposition: form-data; name=\x22file_directory\x22\r\n\r\nmodels/item/carved_pumpkin\r\n--B\r\nContent-Disposition: form-data; name=\x22file_name\x22\r\n\r\nm.json\r\n--B\r\nContent-Disposition: form-data; name=\x22file\x22\r\n\r\n\x7b\x7d\r\n--B--").toList

/-- Upload body whose `file_directory` is not in the allowed set for
`application/json` under `hat`. -/
def bodyBadDir : Str :=
  ("--B\r\nContent-Disposition: form-data; name=\x22resource_uuid\x22\r\n\r\nr1\r\n--B\r\nContent-Disposition: form-data; name=\x22content_type\x22\r\n\r\napplication/json\r\n--B\r\nContent-Disposition: form-data; name=\x22file_directory\x22\r\n\r\ntextures/item/hat\r\n--B\r\nContent-Disposition: form-data; name=\x22file_name\x22\r\n\r\nm.json\r\n--B\r\nContent-Disposition: form-data; name=\x22file\x22\r\n\r\n\x7b\x7d\r\n--B--").toList

/-- Upload body declaring `image/png` into the png directory but carrying a
JSON payload, so the magic check fails. -/
def bodyPngMismatch : Str :=
  ("--B\r\nContent-Disposition: form-data; name=\x22resource_uuid\x22\r\n\r\nr1\r\n--B\r\nContent-Disposition: form-data; name=\x22content_type\x22\r\n\r\nimage/png\r\n--B\r\nContent-Disposition: form-data; name=\x22file_directory\x22\r\n\r\ntextures/item/carved_pumpkin\r\n--B\r\nContent-Disposition: form-data; name=\x22file_name\x22\r\n\r\np.png\r\n--B\r\nContent-Disposition: form-data; name=\x22file\x22\r\n\r\n\x7b\x7d\r\n--B--").toList

/-- A body whose part `f` is present but whose value is the empty string
(nothing between the header blank line and the boundary but the CRLF). -/
def bodyEmptyField : Str :=
  ("--B\r\nContent-Disposition: form-data; name=\x22f\x22\r\n\r\n\r\n--B--").toList

/-- Decidable equality for `Except`, so that concrete runs can be checked by
`decide`. -/
instance {ε α : Type} [DecidableEq ε] [DecidableEq α] : DecidableEq (Except ε α) := fun a b =>
  match a, b with
  | .error e1, .error e2 => if h : e1 = e2 then isTrue (by rw [h]) else isFalse (by simp [h])
  | .ok v1, .ok v2 => if h : v1 = v2 then isTrue (by rw [h]) else isFalse (by simp [h])
  | .error _, .ok _ => isFalse (by simp)
  | .ok _, .error _ => isFalse (by simp)

/-- Helper instances so composite result types stay within the instance
search limits. -/
instance : DecidableEq (Str × Str × Str × Str) := instDecidableEqProd

instance : DecidableEq ((Str × Str × Str × Str) × ScanState) := instDecidableEqProd

/-- The four metadata field values of `bodyS`, in read order. -/
def fieldsS : Str × Str × Str × Str :=
  (("r1").toList, ("application/json").toList,
    ("models/item/carved_pumpkin").toList, ("m.json").toList)

/-- The four field-read events emitted by a successful `readFields`. -/
def readFieldEvs : List Event :=
  [.readField fResourceUuid, .readField fContentType,
    .readField fFileDirectory, .readField fFileName]

/-- Is this event a field read. -/
def isReadField : Event → Bool
  | .readField _ => true
  | _ => false

/-- Is this event a store write attempt (blob put or metadata insert). -/
def isStoreWrite : Event → Bool
  | .r2Put _ _ => true
  | .d1InsertFile _ => true
  | _ => false

/-- Is this event the invocation of the file extractor (the reading of the
file payload). -/
def isExtractEv : Event → Bool
  | .extractFile => true
  | _ => false

/-- Is this event the deletion of the resource's own metadata row. -/
def isResourceRowDelete : Event → Bool
  | .d1DeleteResourceRow _ => true
  | _ => false

/-! # Theorems

First a small library about the string primitives, then the claims. -/

theorem lenLAux_eq (l : List α) : ∀ n, lenLAux l n = l.length + n := by
  induction l with
  | nil => intro n; simp [lenLAux]
  | cons a t ih => intro n; simp only [lenLAux, ih, List.length_cons]; omega

theorem lenL_eq (l : List α) : lenL l = l.length := by
  simp [lenL, lenLAux_eq]

theorem isPrefixL_length_le : ∀ {p s : Str}, isPrefixL p s = true → p.length ≤ s.length := by
  intro p
  induction p with
  | nil => intro s _; simp
  | cons a as ih =>
    intro s h
    cases s with
    | nil => simp [isPrefixL] at h
    | cons b bs =>
      simp only [isPrefixL, Bool.and_eq_true] at h
      simpa using ih h.2

theorem isPrefixL_append : ∀ {p s : Str} (t : Str), isPrefixL p s = true →
    isPrefixL p (s ++ t) = true := by
  intro p
  induction p with
  | nil => intro s t _; simp [isPrefixL]
  | cons a as ih =>
    intro s t h
    cases s with
    | nil => simp [isPrefixL] at h
    | cons b bs =>
      simp only [isPrefixL, Bool.and_eq_true] at h
      simp only [List.cons_append, isPrefixL, Bool.and_eq_true]
      exact ⟨h.1, ih t h.2⟩

theorem isPrefixL_flip : ∀ {p s : Str} {t : Str}, isPrefixL p s = false →
    isPrefixL p (s ++ t) = true → s.length < p.length ∧ isPrefixL s p = true := by
  intro p
  induction p with
  | nil => intro s t h1 _; simp [isPrefixL] at h1
  | cons a as ih =>
    intro s t h1 h2
    cases s with
    | nil => simp [isPrefixL]
    | cons b bs =>
      simp only [List.cons_append, isPrefixL] at h1 h2
      rcases Bool.and_eq_true _ _ |>.mp h2 with ⟨hab, h2t⟩
      rw [hab, Bool.true_and] at h1
      have := ih h1 h2t
      constructor
      · simpa using this.1
      · simp only [isPrefixL, Bool.and_eq_true]
        exact ⟨by simpa [BEq.comm] using hab, this.2⟩

theorem isPrefixL_of_eq_length : ∀ {p s : Str}, isPrefixL p s = true →
    s.length = p.length → s = p := by
  intro p
  induction p with
  | nil => intro s _ h2; exact List.length_eq_zero.mp h2
  | cons a as ih =>
    intro s h1 h2
    cases s with
    | nil => simp [isPrefixL] at h1
    | cons b bs =>
      simp only [isPrefixL, Bool.and_eq_true, beq_iff_eq] at h1
      simp only [List.length_cons, Nat.succ_inj] at h2
      rw [h1.1, ih h1.2 h2]

theorem indexOfAux_add (p : Str) : ∀ (s : Str) (i : Nat),
    indexOfAux p s i = (indexOfAux p s 0).map (· + i) := by
  intro s
  induction s with
  | nil =>
    intro i
    by_cases h : isPrefixL p [] = true <;> simp [indexOfAux, h]
  | cons c t ih =>
    intro i
    by_cases h : isPrefixL p (c :: t) = true
    · simp [indexOfAux, h]
    · rw [indexOfAux, if_neg h]
      conv_rhs => rw [indexOfAux, if_neg h]
      rw [ih (i + 1), ih 1]
      cases indexOfAux p t 0 with
      | none => simp
      | some j => simp; omega

theorem indexOf?_nil (p : Str) :
    indexOf? p [] = if isPrefixL p [] = true then some 0 else none := by
  by_cases h : isPrefixL p [] = true <;> simp [indexOf?, indexOfAux, h]

theorem indexOf?_cons (p : Str) (c : Char) (t : Str) :
    indexOf? p (c :: t) =
      if isPrefixL p (c :: t) = true then some 0 else (indexOf? p t).map (· + 1) := by
  by_cases h : isPrefixL p (c :: t) = true
  · simp [indexOf?, indexOfAux, h]
  · rw [indexOf?, indexOfAux, if_neg h, indexOfAux_add]
    simp [indexOf?, h]

theorem indexOf?_bound : ∀ {s p : Str} {i : Nat}, indexOf? p s = some i →
    i + p.length ≤ s.length ∧ isPrefixL p (s.drop i) = true := by
  intro s
  induction s with
  | nil =>
    intro p i h
    rw [indexOf?_nil] at h
    split at h
    · rename_i hp
      cases h
      exact ⟨by simpa using isPrefixL_length_le hp, by simpa using hp⟩
    · cases h
  | cons c t ih =>
    intro p i h
    rw [indexOf?_cons] at h
    split at h
    · rename_i hp
      cases h
      exact ⟨by simpa using isPrefixL_length_le hp, by simpa using hp⟩
    · rcases Option.map_eq_some'.mp h with ⟨j, hj, hij⟩
      rcases ih hj with ⟨hb, hpfx⟩
      subst hij
      refine ⟨by simp only [List.length_cons]; omega, ?_⟩
      simpa using hpfx

theorem indexOf?_append : ∀ {s p t : Str} {i : Nat}, indexOf? p s = some i →
    indexOf? p (s ++ t) = some i := by
  intro s
  induction s with
  | nil =>
    intro p t i h
    rw [indexOf?_nil] at h
    split at h
    · rename_i hp
      cases h
      have : p = [] := by
        cases p with
        | nil => rfl
        | cons a as => simp [isPrefixL] at hp
      subst this
      cases t with
      | nil => simpa using indexOf?_nil []
      | cons x xs => simp [indexOf?_cons, isPrefixL]
    · cases h
  | cons c s2 ih =>
    intro p t i h
    rw [indexOf?_cons] at h
    split at h
    · rename_i hp
      cases h
      have hpt := isPrefixL_append t hp
      rw [List.cons_append] at hpt
      rw [List.cons_append, indexOf?_cons, if_pos hpt]
    · rename_i hp
      rcases Option.map_eq_some'.mp h with ⟨j, hj, hij⟩
      subst hij
      have hrec := ih (t := t) hj
      rw [List.cons_append, indexOf?_cons]
      have hnp : ¬ isPrefixL p (c :: (s2 ++ t)) = true := by
        intro hflip
        have hflip2 := isPrefixL_flip (Bool.not_eq_true _ |>.mp hp)
          (by simpa using hflip)
        have hbnd := (indexOf?_bound hj).1
        have : p.length ≤ s2.length := by omega
        simp only [List.length_cons] at hflip2
        omega
      rw [if_neg hnp, hrec]
      rfl

theorem indexOf?_replicate_shift {c a : Char} {ps : Str} (hca : ¬ c = a) :
    ∀ (n : Nat) (t : Str),
    indexOf? (c :: ps) (List.replicate n a ++ t) = (indexOf? (c :: ps) t).map (· + n) := by
  intro n
  induction n with
  | zero =>
    intro t
    simp only [List.replicate, List.nil_append]
    cases indexOf? (c :: ps) t <;> simp
  | succ m ih =>
    intro t
    rw [List.replicate_succ, List.cons_append, indexOf?_cons]
    have hnp : ¬ isPrefixL (c :: ps) (a :: (List.replicate m a ++ t)) = true := by
      simp [isPrefixL, hca]
    rw [if_neg hnp, ih t]
    cases indexOf? (c :: ps) t with
    | none => simp
    | some j => simp; omega

theorem indexOf?_replicate {c a : Char} {ps : Str} (hca : ¬ c = a) (n : Nat) :
    indexOf? (c :: ps) (List.replicate n a) = none := by
  have h := @indexOf?_replicate_shift c a ps hca n []
  rw [List.append_nil] at h
  rw [h]
  simp [indexOf?_nil, isPrefixL]

theorem matchAt_le {s : Str} {l : Nat} (h : matchAt s = some l) : 2 ≤ l ∧ l ≤ s.length := by
  unfold matchAt at h
  split_ifs at h with h1 h2 h3 h4 <;> cases h
  · exact ⟨by omega, by simpa using isPrefixL_length_le h1⟩
  · exact ⟨by omega, by simpa using isPrefixL_length_le h2⟩
  · exact ⟨by omega, by simpa using isPrefixL_length_le h3⟩
  · exact ⟨by omega, by simpa using isPrefixL_length_le h4⟩

theorem isPrefixL_head {a b : Char} {as bs : Str}
    (h : isPrefixL (a :: as) (b :: bs) = true) : a = b := by
  simp only [isPrefixL, Bool.and_eq_true, beq_iff_eq] at h
  exact h.1

theorem isPrefixL_flip_not {p s t : Str} (h1 : ¬ isPrefixL p s = true)
    (h2 : isPrefixL p (s ++ t) = true) : s.length < p.length ∧ isPrefixL s p = true := by
  have h1f : isPrefixL p s = false := by
    revert h1; cases isPrefixL p s <;> simp
  exact isPrefixL_flip h1f h2

theorem matchAt_append {s t : Str} {l : Nat} (h : matchAt s = some l) :
    matchAt (s ++ t) = some l := by
  unfold matchAt at h ⊢
  split_ifs at h with h1 h2 h3 h4 <;> cases h
  · rw [if_pos (isPrefixL_append t h1)]
  · have hn1 : ¬ isPrefixL ['\r', '\n', '\r', '\n'] (s ++ t) = true := by
      intro hf
      rcases isPrefixL_flip_not h1 hf with ⟨hlen, hpf⟩
      have hle2 := isPrefixL_length_le h2
      have hseq : s = ['\r', '\n', '\n'] :=
        isPrefixL_of_eq_length h2
          (by simp only [List.length_cons, List.length_nil] at hlen hle2 ⊢; omega)
      rw [hseq] at hpf
      simp [isPrefixL] at hpf
    rw [if_neg hn1, if_pos (isPrefixL_append t h2)]
  · have hn1 : ¬ isPrefixL ['\r', '\n', '\r', '\n'] (s ++ t) = true := by
      intro hf
      rcases isPrefixL_flip_not h1 hf with ⟨hlen, hpf⟩
      have hle3 := isPrefixL_length_le h3
      have hseq : s = ['\n', '\r', '\n'] :=
        isPrefixL_of_eq_length h3
          (by simp only [List.length_cons, List.length_nil] at hlen hle3 ⊢; omega)
      rw [hseq] at hpf
      simp [isPrefixL] at hpf
    have hn2 : ¬ isPrefixL ['\r', '\n', '\n'] (s ++ t) = true := by
      intro hf
      rcases isPrefixL_flip_not h2 hf with ⟨hlen, hpf⟩
      have hle3 := isPrefixL_length_le h3
      simp only [List.length_cons, List.length_nil] at hlen hle3
      omega
    rw [if_neg hn1, if_neg hn2, if_pos (isPrefixL_append t h3)]
  · obtain ⟨x, xs, rfl⟩ : ∃ x xs, s = x :: xs := by
      cases s with
      | nil => simp [isPrefixL] at h4
      | cons x xs => exact ⟨x, xs, rfl⟩
    have hx : x = '\n' := (isPrefixL_head h4).symm
    have hn1 : ¬ isPrefixL ['\r', '\n', '\r', '\n'] (x :: xs ++ t) = true := by
      intro hf
      rcases isPrefixL_flip_not h1 hf with ⟨hlen, hpf⟩
      have := isPrefixL_head hpf
      rw [hx] at this
      simp at this
    have hn2 : ¬ isPrefixL ['\r', '\n', '\n'] (x :: xs ++ t) = true := by
      intro hf
      rcases isPrefixL_flip_not h2 hf with ⟨hlen, hpf⟩
      have := isPrefixL_head hpf
      rw [hx] at this
      simp at this
    have hn3 : ¬ isPrefixL ['\n', '\r', '\n'] (x :: xs ++ t) = true := by
      intro hf
      rcases isPrefixL_flip_not h3 hf with ⟨hlen, hpf⟩
      have hle4 := isPrefixL_length_le h4
      have hseq : x :: xs = ['\n', '\n'] :=
        isPrefixL_of_eq_length h4
          (by simp only [List.length_cons, List.length_nil] at hlen hle4 ⊢; omega)
      rw [hseq] at hpf
      simp [isPrefixL] at hpf
    rw [if_neg hn1, if_neg hn2, if_neg hn3, if_pos (isPrefixL_append t h4)]

theorem matchAt_some_branch {s : Str} {l : Nat} (h : matchAt s = some l) :
    isPrefixL ['\r', '\n', '\r', '\n'] s = true ∨ isPrefixL ['\r', '\n', '\n'] s = true ∨
      isPrefixL ['\n', '\r', '\n'] s = true ∨ isPrefixL ['\n', '\n'] s = true := by
  unfold matchAt at h
  split_ifs at h with h1 h2 h3 h4
  · exact Or.inl h1
  · exact Or.inr (Or.inl h2)
  · exact Or.inr (Or.inr (Or.inl h3))
  · exact Or.inr (Or.inr (Or.inr h4))

theorem matchAt_none_branch {s : Str} (h : matchAt s = none) :
    ¬ isPrefixL ['\r', '\n', '\r', '\n'] s = true ∧ ¬ isPrefixL ['\r', '\n', '\n'] s = true ∧
      ¬ isPrefixL ['\n', '\r', '\n'] s = true ∧ ¬ isPrefixL ['\n', '\n'] s = true := by
  unfold matchAt at h
  split_ifs at h with h1 h2 h3 h4
  exact ⟨h1, h2, h3, h4⟩

theorem matchAt_eq_two {s : Str} (h : matchAt s = some 2) :
    isPrefixL ['\n', '\n'] s = true := by
  unfold matchAt at h
  split_ifs at h with h1 h2 h3 h4 <;> simp_all

theorem matchAt_nil : matchAt ([] : Str) = none := by
  simp [matchAt, isPrefixL]

theorem findBlankAux_bound : ∀ {s : Str} {i j l : Nat}, findBlankAux s i = some (j, l) →
    i ≤ j ∧ (j - i) + l ≤ s.length ∧ 2 ≤ l := by
  intro s
  induction s with
  | nil =>
    intro i j l h
    simp [findBlankAux] at h
  | cons c t ih =>
    intro i j l h
    cases hm : matchAt (c :: t) with
    | some l0 =>
      simp only [findBlankAux, hm, Option.some.injEq, Prod.mk.injEq] at h
      rcases h with ⟨hj, hl⟩
      subst hj; subst hl
      rcases matchAt_le hm with ⟨h2l, hle⟩
      exact ⟨Nat.le_refl _, by simpa using hle, h2l⟩
    | none =>
      simp only [findBlankAux, hm] at h
      rcases ih h with ⟨hij, hb, h2l⟩
      refine ⟨by omega, ?_, h2l⟩
      simp only [List.length_cons]
      omega

theorem findBlankAux_self {s : Str} {i l : Nat} (h : findBlankAux s i = some (i, l)) :
    matchAt s = some l := by
  cases s with
  | nil => simp [findBlankAux] at h
  | cons c t =>
    cases hm : matchAt (c :: t) with
    | some l0 =>
      simp only [findBlankAux, hm, Option.some.injEq, Prod.mk.injEq, true_and] at h
      rw [h]
    | none =>
      simp only [findBlankAux, hm] at h
      exact absurd (findBlankAux_bound h).1 (by omega)

theorem findBlankAux_append : ∀ {s : Str} (t : Str) {i j l : Nat},
    findBlankAux s i = some (j, l) → findBlankAux (s ++ t) i = some (j, l) := by
  intro s
  induction s with
  | nil =>
    intro t i j l h
    simp [findBlankAux] at h
  | cons c s2 ih =>
    intro t i j l h
    cases hm : matchAt (c :: s2) with
    | some l0 =>
      simp only [findBlankAux, hm, Option.some.injEq, Prod.mk.injEq] at h
      rcases h with ⟨hj, hl⟩
      subst hj; subst hl
      have hma := matchAt_append (t := t) hm
      rw [List.cons_append] at hma
      rw [List.cons_append]
      simp only [findBlankAux, hma]
    | none =>
      simp only [findBlankAux, hm] at h
      have hrec := ih t h
      rw [List.cons_append]
      cases hm2 : matchAt (c :: (s2 ++ t)) with
      | none =>
        simp only [findBlankAux, hm2]
        exact hrec
      | some l2 =>
        exfalso
        rcases findBlankAux_bound h with ⟨hij, hb, h2l⟩
        have hflipbr := matchAt_some_branch hm2
        have hnone := matchAt_none_branch hm
        have hs2len : s2.length ≤ 2 := by
          rcases hflipbr with hbr | hbr | hbr | hbr
          · have hbr2 : isPrefixL ['\r', '\n', '\r', '\n'] ((c :: s2) ++ t) = true := by
              simpa using hbr
            rcases isPrefixL_flip_not hnone.1 hbr2 with ⟨hlen, _⟩
            simp only [List.length_cons, List.length_nil] at hlen
            omega
          · have hbr2 : isPrefixL ['\r', '\n', '\n'] ((c :: s2) ++ t) = true := by
              simpa using hbr
            rcases isPrefixL_flip_not hnone.2.1 hbr2 with ⟨hlen, _⟩
            simp only [List.length_cons, List.length_nil] at hlen
            omega
          · have hbr2 : isPrefixL ['\n', '\r', '\n'] ((c :: s2) ++ t) = true := by
              simpa using hbr
            rcases isPrefixL_flip_not hnone.2.2.1 hbr2 with ⟨hlen, _⟩
            simp only [List.length_cons, List.length_nil] at hlen
            omega
          · have hbr2 : isPrefixL ['\n', '\n'] ((c :: s2) ++ t) = true := by
              simpa using hbr
            rcases isPrefixL_flip_not hnone.2.2.2 hbr2 with ⟨hlen, _⟩
            simp only [List.length_cons, List.length_nil] at hlen
            omega
        have hj : j = i + 1 := by omega
        have hl : l = 2 := by omega
        have hlen2 : s2.length = 2 := by omega
        subst hj; subst hl
        have hm2eq : matchAt s2 = some 2 := findBlankAux_self h
        have hs2 : s2 = ['\n', '\n'] :=
          isPrefixL_of_eq_length (matchAt_eq_two hm2eq) (by simpa using hlen2)
        subst hs2
        rcases hflipbr with hbr | hbr | hbr | hbr
        · have hbr2 : isPrefixL ['\r', '\n', '\r', '\n'] ((c :: ['\n', '\n']) ++ t) = true := by
            simpa using hbr
          rcases isPrefixL_flip_not hnone.1 hbr2 with ⟨hlen, hpf⟩
          have hnn : (('\n' : Char) == '\r') = false := by decide
          simp [isPrefixL, hnn] at hpf
        · have hbr2 : isPrefixL ['\r', '\n', '\n'] ((c :: ['\n', '\n']) ++ t) = true := by
            simpa using hbr
          rcases isPrefixL_flip_not hnone.2.1 hbr2 with ⟨hlen, hpf⟩
          simp only [List.length_cons, List.length_nil] at hlen
          omega
        · have hbr2 : isPrefixL ['\n', '\r', '\n'] ((c :: ['\n', '\n']) ++ t) = true := by
            simpa using hbr
          rcases isPrefixL_flip_not hnone.2.2.1 hbr2 with ⟨hlen, hpf⟩
          simp only [List.length_cons, List.length_nil] at hlen
          omega
        · have hbr2 : isPrefixL ['\n', '\n'] ((c :: ['\n', '\n']) ++ t) = true := by
            simpa using hbr
          rcases isPrefixL_flip_not hnone.2.2.2 hbr2 with ⟨hlen, hpf⟩
          simp only [List.length_cons, List.length_nil] at hlen
          omega

theorem findBlank?_append {s : Str} (t : Str) {j l : Nat}
    (h : findBlank? s = some (j, l)) : findBlank? (s ++ t) = some (j, l) :=
  findBlankAux_append t h

theorem findBlank?_bound {s : Str} {j l : Nat} (h : findBlank? s = some (j, l)) :
    j + l ≤ s.length ∧ 2 ≤ l := by
  rcases findBlankAux_bound h with ⟨_, hb, h2⟩
  exact ⟨by simpa using hb, h2⟩

theorem searchField_append {boundary tgt B t : Str} {v r : Str}
    (h : searchField boundary tgt B = some (v, r)) :
    searchField boundary tgt (B ++ t) = some (v, r ++ t) := by
  unfold searchField at h ⊢
  cases hio : indexOf? tgt B with
  | none => rw [hio] at h; cases h
  | some headerIndex =>
    simp only [hio] at h
    have hhb := (indexOf?_bound hio).1
    have hdrop : (B ++ t).drop headerIndex = B.drop headerIndex ++ t := by
      rw [List.drop_append_eq_append_drop, Nat.sub_eq_zero_of_le (by omega), List.drop_zero]
    simp only [indexOf?_append hio, hdrop]
    cases hfb : findBlank? (B.drop headerIndex) with
    | none => rw [hfb] at h; cases h
    | some ml =>
      simp only [hfb] at h
      have hfbb := (findBlank?_bound hfb).1
      have hdrop2 : (B.drop headerIndex ++ t).drop (ml.1 + ml.2) =
          (B.drop headerIndex).drop (ml.1 + ml.2) ++ t := by
        rw [List.drop_append_eq_append_drop,
          Nat.sub_eq_zero_of_le (by simp only [List.length_drop] at hfbb ⊢; omega), List.drop_zero]
      simp only [findBlank?_append t hfb, hdrop2]
      cases hbo : indexOf? boundary ((B.drop headerIndex).drop (ml.1 + ml.2)) with
      | none => rw [hbo] at h; cases h
      | some boundaryIndex =>
        simp only [hbo] at h
        have hbb := (indexOf?_bound hbo).1
        have htake : ((B.drop headerIndex).drop (ml.1 + ml.2) ++ t).take boundaryIndex =
            ((B.drop headerIndex).drop (ml.1 + ml.2)).take boundaryIndex := by
          rw [List.take_append_eq_append_take,
            Nat.sub_eq_zero_of_le (by omega), List.take_zero, List.append_nil]
        have hdrop3 : ((B.drop headerIndex).drop (ml.1 + ml.2) ++ t).drop boundaryIndex =
            ((B.drop headerIndex).drop (ml.1 + ml.2)).drop boundaryIndex ++ t := by
          rw [List.drop_append_eq_append_drop,
            Nat.sub_eq_zero_of_le (by omega), List.drop_zero]
        simp only [indexOf?_append hbo, htake, hdrop3]
        simp only [Option.some.injEq, Prod.mk.injEq] at h
        rw [h.1, h.2]

theorem gmfLoop_window {boundary tgt : Str} {v r : Str} :
    ∀ (chunks : List Str) (B : Str),
    (B ++ concatL chunks).length ≤ BUFFER_SIZE →
    searchField boundary tgt (B ++ concatL chunks) = some (v, r) →
    ∃ buf rest, gmfLoop boundary tgt chunks B = some (v, ⟨buf, rest⟩) := by
  intro chunks
  induction chunks with
  | nil =>
    intro B hlen hsf
    rw [concatL, List.append_nil] at hsf
    refine ⟨r, [], ?_⟩
    simp only [gmfLoop, hsf]
  | cons c cs ih =>
    intro B hlen hsf
    cases hB : searchField boundary tgt B with
    | some vr =>
      have hstab := searchField_append (t := concatL (c :: cs)) hB
      rw [hsf] at hstab
      have hv : vr.1 = v := by
        cases vr
        simp only [Option.some.injEq, Prod.mk.injEq] at hstab
        exact hstab.1.symm
      refine ⟨vr.2, c :: cs, ?_⟩
      simp only [gmfLoop, hB, hv]
    | none =>
      have hBlen : B.length ≤ BUFFER_SIZE := by
        have := hlen
        simp only [List.length_append] at this
        omega
      have htrim : trimWindow B = B := by
        unfold trimWindow
        rw [lenL_eq, if_neg (by omega)]
      have hassoc : (B ++ c) ++ concatL cs = B ++ concatL (c :: cs) := by
        rw [concatL, List.append_assoc]
      rcases ih (B ++ c) (by rw [hassoc]; exact hlen) (by rw [hassoc]; exact hsf)
        with ⟨buf, rest, hloop⟩
      refine ⟨buf, rest, ?_⟩
      simp only [gmfLoop, hB, htrim]
      exact hloop

theorem dropWhile_replicate_append {p : α → Bool} {a : α} (h : p a = false)
    (n : Nat) (hn : n ≠ 0) (t : List α) :
    (List.replicate n a ++ t).dropWhile p = List.replicate n a ++ t := by
  cases n with
  | zero => exact absurd rfl hn
  | succ m =>
    rw [List.replicate_succ, List.cons_append,
      List.dropWhile_cons_of_neg (by simp [h])]

theorem trimL_replicate_crlf (n : Nat) (hn : n ≠ 0) :
    trimL (List.replicate n 'a' ++ ['\r', '\n']) = List.replicate n 'a' := by
  have ha : isJsWS 'a' = false := by decide
  unfold trimL
  rw [dropWhile_replicate_append ha n hn, List.reverse_append, List.reverse_replicate]
  have hrev : (['\r', '\n'] : Str).reverse = ['\n', '\r'] := by decide
  rw [hrev, List.cons_append, List.cons_append, List.nil_append,
    List.dropWhile_cons_of_pos (by decide), List.dropWhile_cons_of_pos (by decide),
    List.dropWhile_replicate, if_neg (by decide), List.reverse_replicate]

theorem searchFieldC3_nil : searchField bdyS (targetHeader fC3) [] = none := by decide

theorem trimWindow_nil : trimWindow [] = [] := by decide

theorem searchFieldC3_chunk1 : searchField bdyS (targetHeader fC3) c3chunk1 = none := by
  have h12 : hdrC3.drop 37 = ("name=\x22f\x22\r\n\r\n").toList := by decide
  have h49 : hdrC3.length = 49 := by decide
  have hd12 : (("name=\x22f\x22\r\n\r\n").toList).drop (8 + 4) = [] := by decide
  have hl12 : (("name=\x22f\x22\r\n\r\n").toList).length = 12 := by decide
  have hio : indexOf? (targetHeader fC3) c3chunk1 = some 37 :=
    indexOf?_append (t := List.replicate 2100 'a') (by decide)
  have hdrop : c3chunk1.drop 37 =
      ("name=\x22f\x22\r\n\r\n").toList ++ List.replicate 2100 'a' := by
    show (hdrC3 ++ List.replicate 2100 'a').drop 37 = _
    rw [List.drop_append_eq_append_drop, h12, h49,
      Nat.sub_eq_zero_of_le (by norm_num), List.drop_zero]
  have hfb : findBlank? (c3chunk1.drop 37) = some (8, 4) := by
    rw [hdrop]
    exact findBlank?_append _ (by decide)
  have hcr : (c3chunk1.drop 37).drop (8 + 4) = List.replicate 2100 'a' := by
    rw [hdrop, List.drop_append_eq_append_drop, hd12, hl12, List.nil_append,
      Nat.sub_eq_zero_of_le (by norm_num), List.drop_zero]
  have hbo : indexOf? bdyS ((c3chunk1.drop 37).drop (8 + 4)) = none := by
    rw [hcr]
    have hb : bdyS = '-' :: ("-B").toList := by decide
    rw [hb]
    exact indexOf?_replicate (by decide) 2100
  unfold searchField
  simp only [hio, hfb, hbo]

theorem trimWindowC3_chunk1 : trimWindow c3chunk1 = List.replicate 2048 'a' := by
  have h49 : hdrC3.length = 49 := by decide
  have hlen : lenL c3chunk1 = 2149 := by
    rw [lenL_eq]
    show (hdrC3 ++ List.replicate 2100 'a').length = 2149
    rw [List.length_append, List.length_replicate, h49]
  unfold trimWindow
  rw [hlen, if_pos (by decide)]
  show (hdrC3 ++ List.replicate 2100 'a').drop (2149 - BUFFER_SIZE) = _
  have hsub : 2149 - BUFFER_SIZE = 101 := by decide
  rw [hsub, List.drop_append_eq_append_drop,
    List.drop_eq_nil_of_le (by rw [h49]; norm_num), h49, List.nil_append,
    List.drop_replicate]

theorem searchFieldC3_chunk2 :
    searchField bdyS (targetHeader fC3) (List.replicate 2048 'a' ++ c3chunk2) = none := by
  have htgt : targetHeader fC3 = 'n' :: ("ame=\x22f\x22").toList := by decide
  have hio : indexOf? (targetHeader fC3) (List.replicate 2048 'a' ++ c3chunk2) = none := by
    rw [htgt, indexOf?_replicate_shift (by decide)]
    show (indexOf? _ (List.replicate 10 'a' ++ tailC3)).map _ = none
    rw [indexOf?_replicate_shift (by decide)]
    have hnone : indexOf? ('n' :: ("ame=\x22f\x22").toList) tailC3 = none := by decide
    rw [hnone]
    rfl
  unfold searchField
  simp only [hio]

theorem searchFieldC3_whole :
    searchField bdyS (targetHeader fC3) (c3chunk1 ++ c3chunk2) =
      some (List.replicate 2110 'a', ("--B--").toList) := by
  have h12 : hdrC3.drop 37 = ("name=\x22f\x22\r\n\r\n").toList := by decide
  have h49 : hdrC3.length = 49 := by decide
  have hd12 : (("name=\x22f\x22\r\n\r\n").toList).drop (8 + 4) = [] := by decide
  have hl12 : (("name=\x22f\x22\r\n\r\n").toList).length = 12 := by decide
  have hio : indexOf? (targetHeader fC3) (c3chunk1 ++ c3chunk2) = some 37 :=
    indexOf?_append (indexOf?_append (t := List.replicate 2100 'a') (by decide))
  have hdrop : (c3chunk1 ++ c3chunk2).drop 37 =
      ("name=\x22f\x22\r\n\r\n").toList ++ (List.replicate 2100 'a' ++ c3chunk2) := by
    show ((hdrC3 ++ List.replicate 2100 'a') ++ c3chunk2).drop 37 = _
    rw [List.append_assoc, List.drop_append_eq_append_drop, h12, h49,
      Nat.sub_eq_zero_of_le (by norm_num), List.drop_zero]
  have hfb : findBlank? ((c3chunk1 ++ c3chunk2).drop 37) = some (8, 4) := by
    rw [hdrop]
    exact findBlank?_append _ (by decide)
  have hcr : ((c3chunk1 ++ c3chunk2).drop 37).drop (8 + 4) =
      List.replicate 2100 'a' ++ c3chunk2 := by
    rw [hdrop, List.drop_append_eq_append_drop, hd12, hl12, List.nil_append,
      Nat.sub_eq_zero_of_le (by norm_num), List.drop_zero]
  have hbo : indexOf? bdyS (((c3chunk1 ++ c3chunk2).drop 37).drop (8 + 4)) = some 2112 := by
    rw [hcr]
    have hb : bdyS = '-' :: ("-B").toList := by decide
    show indexOf? bdyS (List.replicate 2100 'a' ++ (List.replicate 10 'a' ++ tailC3)) = _
    rw [hb, indexOf?_replicate_shift (by decide), indexOf?_replicate_shift (by decide)]
    have h2 : indexOf? ('-' :: ("-B").toList) tailC3 = some 2 := by decide
    rw [h2]
    rfl
  have htake : (((c3chunk1 ++ c3chunk2).drop 37).drop (8 + 4)).take 2112 =
      List.replicate 2110 'a' ++ ['\r', '\n'] := by
    rw [hcr]
    show (List.replicate 2100 'a' ++ (List.replicate 10 'a' ++ tailC3)).take 2112 = _
    rw [List.take_append_eq_append_take, List.take_replicate, List.length_replicate]
    have hmin : min 2112 2100 = 2100 := by norm_num
    have hsub : 2112 - 2100 = 12 := by norm_num
    rw [hmin, hsub, List.take_append_eq_append_take, List.take_replicate,
      List.length_replicate]
    have hmin2 : min 12 10 = 10 := by norm_num
    have hsub2 : 12 - 10 = 2 := by norm_num
    have ht2 : tailC3.take 2 = ['\r', '\n'] := by decide
    rw [hmin2, hsub2, ht2, ← List.append_assoc, List.append_replicate_replicate]
  have hdrop2 : (((c3chunk1 ++ c3chunk2).drop 37).drop (8 + 4)).drop 2112 =
      ("--B--").toList := by
    rw [hcr]
    show (List.replicate 2100 'a' ++ (List.replicate 10 'a' ++ tailC3)).drop 2112 = _
    rw [List.drop_append_eq_append_drop, List.drop_replicate, List.length_replicate]
    have hz : (2100 : Nat) - 2112 = 0 := by norm_num
    have hsub : 2112 - 2100 = 12 := by norm_num
    rw [hz, hsub, List.replicate_zero, List.nil_append,
      List.drop_append_eq_append_drop, List.drop_replicate, List.length_replicate]
    have hz2 : (10 : Nat) - 12 = 0 := by norm_num
    have hsub2 : 12 - 10 = 2 := by norm_num
    rw [hz2, hsub2, List.replicate_zero, List.nil_append]
    decide
  unfold searchField
  simp only [hio, hfb, hbo, htake, hdrop2, trimL_replicate_crlf 2110 (by norm_num)]

/-- C3, amended, general form: reading a field from a scanner state whose
total remaining input fits the 2 KiB buffer window returns, for EVERY
chunking, exactly the trimmed substring between the field header's blank line
and the next boundary (as computed by the one-pass `searchField` on the whole
input), provided that value is non-empty. -/
theorem getMultipartField_window (boundary fieldName : Str) (st : ScanState) (v r : Str)
    (hlen : (st.buffer ++ concatL st.chunks).length ≤ BUFFER_SIZE)
    (hsf : searchField boundary (targetHeader fieldName) (st.buffer ++ concatL st.chunks) =
      some (v, r))
    (hne : v ≠ []) :
    ∃ buf rest, getMultipartField boundary fieldName st = .ok (v, ⟨buf, rest⟩) := by
  rcases gmfLoop_window st.chunks st.buffer hlen hsf with ⟨buf, rest, hloop⟩
  refine ⟨buf, rest, ?_⟩
  unfold getMultipartField
  simp only [hloop, if_neg hne]

/-- C3, counterexample: the same well-formed body (a part named `f` whose
value is 2110 characters) read in one chunk yields the value, but delivered
as two chunks the window trim discards the part header mid-scan and the read
fails with `missing_f` instead. -/
theorem getMultipartField_chunking_counterexample :
    getMultipartField bdyS fC3 ⟨[], [c3chunk1, c3chunk2]⟩ = .error ("missing_f") ∧
    getMultipartField bdyS fC3 ⟨[], [c3chunk1 ++ c3chunk2]⟩ =
      .ok (List.replicate 2110 'a', ⟨("--B--").toList, []⟩) := by
  constructor
  · unfold getMultipartField
    have hloop : gmfLoop bdyS (targetHeader fC3) [c3chunk1, c3chunk2] [] = none := by
      simp only [gmfLoop, searchFieldC3_nil, trimWindow_nil, List.nil_append,
        searchFieldC3_chunk1, trimWindowC3_chunk1, searchFieldC3_chunk2]
    rw [hloop]
    have : missingMsg fC3 = "missing_f" := by decide
    rw [this]
  · unfold getMultipartField
    have hloop : gmfLoop bdyS (targetHeader fC3) [c3chunk1 ++ c3chunk2] [] =
        some (List.replicate 2110 'a', ⟨("--B--").toList, []⟩) := by
      simp only [gmfLoop, searchFieldC3_nil, trimWindow_nil, List.nil_append,
        searchFieldC3_whole]
    simp only [hloop]
    rw [if_neg (by simp)]

set_option maxRecDepth 4000 in
theorem readFields_bodyS :
    readFields bdyS ⟨[], [bodyS]⟩ = (.ok (fieldsS, stS4), readFieldEvs) := by decide

set_option maxRecDepth 4000 in
theorem readFields_bodyPngMismatch :
    readFields bdyS ⟨[], [bodyPngMismatch]⟩ =
      (.ok ((("r1").toList, ("image/png").toList, ("textures/item/carved_pumpkin").toList,
        ("p.png").toList), stS4), readFieldEvs) := by decide

set_option maxRecDepth 4000 in
theorem extract_stS4_json :
    extractAndVerifyFile bdyS fFile fieldsS.2.1 stS4 =
      .ok ([0x7b, 0x7d, 13, 10], ⟨("--B--").toList, []⟩) := by decide

set_option maxRecDepth 4000 in
theorem extract_stS4_png :
    extractAndVerifyFile bdyS fFile (("image/png").toList) stS4 =
      .error ("file_type_mismatch") := by decide

/-- C5: the source's `verifyMagic` coincides with the sniffer as the spec
words it (`image/png` iff at least 8 bytes starting `89 50 4E 47`;
`application/json` iff the decoded, trimmed prefix starts with a brace or a
bracket; anything else false). -/
theorem verifyMagic_matches_spec :
    ∀ (contentType : Str) (bytes : List Nat),
      verifyMagic contentType bytes = sniffSpec contentType bytes := by
  intro ct bytes
  unfold verifyMagic sniffSpec
  by_cases hpng : ct = ("image/png").toList
  · rw [if_pos hpng, if_pos hpng]
    by_cases h8 : 8 ≤ bytes.length
    · rw [decide_eq_true h8]
      simp only [Bool.true_and]
      match bytes, h8 with
      | b0 :: b1 :: b2 :: b3 :: rest, _ =>
        simp only [List.getD_cons_zero, List.getD_cons_succ]
        show _ = ([b0, b1, b2, b3] == [0x89, 0x50, 0x4E, 0x47])
        cases hb0 : b0 == 0x89 <;> cases hb1 : b1 == 0x50 <;>
          cases hb2 : b2 == 0x4E <;> cases hb3 : b3 == 0x47 <;>
          simp_all [List.instBEq, List.beq]
    · rw [decide_eq_false h8]
      simp only [Bool.false_and]
  · rw [if_neg hpng, if_neg hpng]

/-- C9: the scanner never returns an empty value: the final falsy check turns
a present-but-empty field into the same `missing_<field>` failure as an absent
part (shown on a body whose part `f` has an empty value, and on an empty
source). -/
theorem getMultipartField_empty_is_missing :
    (∀ (boundary fieldName : Str) (st : ScanState) (v : Str) (st2 : ScanState),
      getMultipartField boundary fieldName st = .ok (v, st2) → v ≠ []) ∧
    getMultipartField bdyS fC3 ⟨[], [bodyEmptyField]⟩ = .error ("missing_f") ∧
    getMultipartField bdyS fC3 ⟨[], []⟩ = .error ("missing_f") := by
  refine ⟨?_, by decide, by decide⟩
  intro boundary fieldName st v st2 h
  unfold getMultipartField at h
  cases hloop : gmfLoop boundary (targetHeader fieldName) st.chunks st.buffer with
  | none => rw [hloop] at h; cases h
  | some vst =>
    simp only [hloop] at h
    by_cases hne : vst.1 = []
    · rw [if_pos hne] at h; cases h
    · rw [if_neg hne] at h
      cases h
      exact hne

/-- Witness for the empty-value theorem: a concrete successful read, whose
returned value is therefore non-empty. -/
theorem getMultipartField_empty_is_missing_witness : ("val").toList ≠ [] :=
  getMultipartField_empty_is_missing.1 bdyS fC3
    ⟨[], [("--B\r\nContent-Disposition: form-data; name=\x22f\x22\r\n\r\nval\r\n--B--").toList]⟩
    (("val").toList) ⟨("--B--").toList, []⟩ (by decide)

theorem concatL_append (xs : List (List α)) (y : List α) :
    concatL (xs ++ [y]) = concatL xs ++ y := by
  induction xs with
  | nil => simp [concatL]
  | cons l ls ih => simp [concatL, ih]

theorem extractStep_inv {boundary tgt buffer : Str} {started : Bool} {acc : ExtractAcc}
    {r : Bool × ExtractAcc × Str}
    (hMax : acc.bytesRead ≤ MAX_FILE_SIZE)
    (hLen : acc.bytesRead = (concatL acc.fileChunks).length)
    (h : extractStep boundary tgt buffer started acc = .ok r) :
    r.2.1.bytesRead ≤ MAX_FILE_SIZE ∧
      r.2.1.bytesRead = (concatL r.2.1.fileChunks).length := by
  cases hhs : headerScan tgt buffer started with
  | none =>
    simp only [extractStep, hhs] at h
    cases h
    exact ⟨hMax, hLen⟩
  | some contentRest =>
    simp only [extractStep, hhs] at h
    by_cases hsz : MAX_FILE_SIZE <
        acc.bytesRead + (encodeUtf8 (chunkTextOf boundary contentRest)).length
    · rw [if_pos hsz] at h
      cases h
    · rw [if_neg hsz] at h
      cases h
      constructor
      · simpa using Nat.le_of_not_lt hsz
      · simp only []
        rw [concatL_append, List.length_append, ← hLen]

theorem extractLoop_inv {boundary tgt : Str} :
    ∀ (chunks : List Str) (buffer : Str) (started : Bool) (acc : ExtractAcc)
      (r : Bool × ExtractAcc × Str),
    acc.bytesRead ≤ MAX_FILE_SIZE →
    acc.bytesRead = (concatL acc.fileChunks).length →
    extractLoop boundary tgt chunks buffer started acc = .ok r →
    r.2.1.bytesRead ≤ MAX_FILE_SIZE ∧
      r.2.1.bytesRead = (concatL r.2.1.fileChunks).length := by
  intro chunks
  induction chunks with
  | nil =>
    intro buffer started acc r hMax hLen h
    exact extractStep_inv hMax hLen h
  | cons c cs ih =>
    intro buffer started acc r hMax hLen h
    rw [extractLoop] at h
    cases hstep : extractStep boundary tgt buffer started acc with
    | error e => rw [hstep] at h; cases h
    | ok r2 =>
      rw [hstep] at h
      rcases extractStep_inv hMax hLen hstep with ⟨hMax2, hLen2⟩
      exact ih _ _ _ _ hMax2 hLen2 h

theorem extractAndVerifyFile_ok_size {boundary fieldName content_type : Str} {st : ScanState}
    {bytes : List Nat} {st2 : ScanState}
    (h : extractAndVerifyFile boundary fieldName content_type st = .ok (bytes, st2)) :
    bytes.length ≤ MAX_FILE_SIZE := by
  unfold extractAndVerifyFile at h
  cases hloop : extractLoop boundary (targetHeader fieldName) st.chunks st.buffer false
      ⟨0, [], []⟩ with
  | error e => rw [hloop] at h; cases h
  | ok r =>
    simp only [hloop] at h
    rcases extractLoop_inv st.chunks st.buffer false ⟨0, [], []⟩ r (by decide) rfl hloop
      with ⟨hMax, hLen⟩
    by_cases h1 : r.1 = false
    · rw [if_pos h1] at h
      cases h
    · rw [if_neg h1] at h
      by_cases h2 : verifyMagic content_type r.2.1.magic = false
      · rw [if_pos h2] at h
        cases h
      · rw [if_neg h2] at h
        cases h
        rw [← hLen]
        exact hMax

theorem extractStep_too_large {boundary tgt buffer : Str} {acc : ExtractAcc}
    (h : MAX_FILE_SIZE < acc.bytesRead + (encodeUtf8 (chunkTextOf boundary buffer)).length) :
    extractStep boundary tgt buffer true acc = .error ("file_too_large") := by
  have hhs : headerScan tgt buffer true = some buffer := rfl
  simp only [extractStep, hhs, if_pos h]

theorem extractLoop_too_large {boundary tgt : Str} (chunks : List Str) {buffer : Str}
    {acc : ExtractAcc}
    (h : MAX_FILE_SIZE < acc.bytesRead + (encodeUtf8 (chunkTextOf boundary buffer)).length) :
    extractLoop boundary tgt chunks buffer true acc = .error ("file_too_large") := by
  cases chunks with
  | nil => exact extractStep_too_large h
  | cons c cs =>
    rw [extractLoop, extractStep_too_large h]

theorem readFields_cases (boundary : Str) (st : ScanState) :
    (∃ e evs, readFields boundary st = (.error e, evs) ∧ evs.all isReadField = true) ∨
    (∃ fields st4, readFields boundary st = (.ok (fields, st4), readFieldEvs)) := by
  cases h1 : getMultipartField boundary fResourceUuid st with
  | error e =>
    exact Or.inl ⟨e, [.readField fResourceUuid], by simp only [readFields, h1], by decide⟩
  | ok p1 =>
    obtain ⟨ru, st1⟩ := p1
    cases h2 : getMultipartField boundary fContentType st1 with
    | error e =>
      exact Or.inl ⟨e, [.readField fResourceUuid, .readField fContentType],
        by simp only [readFields, h1, h2], by decide⟩
    | ok p2 =>
      obtain ⟨ct, st2⟩ := p2
      cases h3 : getMultipartField boundary fFileDirectory st2 with
      | error e =>
        exact Or.inl ⟨e,
          [.readField fResourceUuid, .readField fContentType, .readField fFileDirectory],
          by simp only [readFields, h1, h2, h3], by decide⟩
      | ok p3 =>
        obtain ⟨fd, st3⟩ := p3
        cases h4 : getMultipartField boundary fFileName st3 with
        | error e =>
          exact Or.inl ⟨e,
            [.readField fResourceUuid, .readField fContentType, .readField fFileDirectory,
              .readField fFileName],
            by simp only [readFields, h1, h2, h3, h4], by decide⟩
        | ok p4 =>
          obtain ⟨fn, st4⟩ := p4
          exact Or.inr ⟨(ru, ct, fd, fn), st4, by simp only [readFields, h1, h2, h3, h4]; rfl⟩

theorem readFields_ok_events {boundary : Str} {st : ScanState}
    {fields : Str × Str × Str × Str} {st4 : ScanState} {evs : List Event}
    (h : readFields boundary st = (.ok (fields, st4), evs)) : evs = readFieldEvs := by
  rcases readFields_cases boundary st with ⟨e, evs2, heq, _⟩ | ⟨f2, s2, heq⟩
  · rw [heq] at h
    simp only [Prod.mk.injEq] at h
    exact absurd h.1 (by simp)
  · rw [heq] at h
    simp only [Prod.mk.injEq] at h
    exact h.2.symm

/-- C2, amended: the coordinator first reads the four metadata fields, in the
fixed order `resource_uuid, content_type, file_directory, file_name` (a
missing field fails the upload before any store access), and only after all
four are read does it resolve the resource (`resource_not_found` when absent)
and check ownership (`forbidden_action` otherwise). -/
theorem uploadFile_reads_fields_first :
    ∀ (env : Env) (requester_uuid : Str) (chunks : List Str) (boundary file_uuid : Str)
      (now : Nat),
    (∀ e evs, readFields boundary ⟨[], chunks⟩ = (.error e, evs) →
      uploadFile env requester_uuid chunks boundary file_uuid now = (.error e, evs) ∧
      evs.all isReadField = true) ∧
    (∀ fields st4 evs, readFields boundary ⟨[], chunks⟩ = (.ok (fields, st4), evs) →
      evs = readFieldEvs ∧
      (∃ rest, (uploadFile env requester_uuid chunks boundary file_uuid now).2 =
        readFieldEvs ++ Event.d1FindResource fields.1 :: rest) ∧
      (fetchResource env fields.1 = none →
        uploadFile env requester_uuid chunks boundary file_uuid now =
          (.error ("resource_not_found"), readFieldEvs ++ [.d1FindResource fields.1])) ∧
      (∀ resource, fetchResource env fields.1 = some resource →
        resource.owner_uuid ≠ requester_uuid →
        uploadFile env requester_uuid chunks boundary file_uuid now =
          (.error ("forbidden_action"), readFieldEvs ++ [.d1FindResource fields.1]))) := by
  intro env requester_uuid chunks boundary file_uuid now
  constructor
  · intro e evs h
    constructor
    · unfold uploadFile
      simp only [h]
    · rcases readFields_cases boundary ⟨[], chunks⟩ with ⟨e2, evs2, heq, hall⟩ | ⟨f2, s2, heq⟩
      · rw [heq] at h
        simp only [Prod.mk.injEq] at h
        rw [← h.2]
        exact hall
      · rw [heq] at h
        simp only [Prod.mk.injEq] at h
        exact absurd h.1 (by simp)
  · intro fields st4 evs h
    have hevs := readFields_ok_events h
    subst hevs
    refine ⟨rfl, ?_, ?_, ?_⟩
    · unfold uploadFile
      simp only [h]
      cases hf : fetchResource env fields.1 with
      | none => exact ⟨[], rfl⟩
      | some resource =>
        dsimp only
        by_cases hown : resource.owner_uuid ≠ requester_uuid
        · rw [if_pos hown]
          exact ⟨[], rfl⟩
        · rw [if_neg hown]
          cases policyCheck resource.type fields.2.1 fields.2.2.1 with
          | error e => exact ⟨[], rfl⟩
          | ok u =>
            cases extractAndVerifyFile boundary fFile fields.2.1 st4 with
            | error e => exact ⟨[Event.extractFile], by simp⟩
            | ok fres =>
              exact ⟨Event.extractFile :: (uploadFileToR2 env requester_uuid fres.1 fields.1
                fields.2.2.1 fields.2.2.2 fields.2.1 file_uuid now).2, by simp⟩
    · intro hnone
      unfold uploadFile
      simp only [h, hnone]
    · intro resource hsome hneq
      unfold uploadFile
      simp only [h, hsome]
      rw [if_pos hneq]

/-- C2, counterexample to the spec's step order: with the target resource
absent, the coordinator reports the missing first FIELD (after only a field
read, no store access at all) instead of `resource_not_found` — the fields
are read before the resource is resolved. -/
theorem uploadFile_resolve_first_counterexample :
    uploadFile envNoResource uOwner [] bdyS (("fu").toList) 0 =
      (.error ("missing_resource_uuid"), [.readField fResourceUuid]) ∧
    fetchResource envNoResource (("r1").toList) = none :=
  ⟨by decide, by decide⟩

/-- Witness: on the sample body with no resources in the store, the amended
theorem yields the `resource_not_found` failure after the four reads. -/
theorem uploadFile_reads_fields_first_witness :
    uploadFile envNoResource uOwner [bodyS] bdyS (("fu").toList) 0 =
      (.error ("resource_not_found"), readFieldEvs ++ [.d1FindResource (("r1").toList)]) := by
  have h := (uploadFile_reads_fields_first envNoResource uOwner [bodyS] bdyS
      (("fu").toList) 0).2 fieldsS stS4 readFieldEvs readFields_bodyS
  exact h.2.2.1 (by decide)

/-- C8: the upload policy check evaluates its three conditions in source
order — resource type in the table (else `undefined_resource_type`), declared
content type listed under it (else `forbidden_content_type`), directory in
the allowed set (else `forbidden_file_directory`) — and a policy failure
aborts the upload before the file payload is read: the trace contains no
extractor invocation and no store write. -/
theorem uploadFile_policy_order :
    ∀ (env : Env) (requester_uuid : Str) (chunks : List Str) (boundary file_uuid : Str)
      (now : Nat) (fields : Str × Str × Str × Str) (st4 : ScanState) (evs : List Event)
      (resource : Resource),
    readFields boundary ⟨[], chunks⟩ = (.ok (fields, st4), evs) →
    fetchResource env fields.1 = some resource →
    resource.owner_uuid = requester_uuid →
    (lookupL RESOURCE_RULES resource.type = none →
      uploadFile env requester_uuid chunks boundary file_uuid now =
        (.error ("undefined_resource_type"), readFieldEvs ++ [.d1FindResource fields.1])) ∧
    (∀ rules, lookupL RESOURCE_RULES resource.type = some rules →
      lookupL rules.allowed_content_types fields.2.1 = none →
      uploadFile env requester_uuid chunks boundary file_uuid now =
        (.error ("forbidden_content_type"), readFieldEvs ++ [.d1FindResource fields.1])) ∧
    (∀ rules contentRules, lookupL RESOURCE_RULES resource.type = some rules →
      lookupL rules.allowed_content_types fields.2.1 = some contentRules →
      contentRules.allowed_directories.contains fields.2.2.1 = false →
      uploadFile env requester_uuid chunks boundary file_uuid now =
        (.error ("forbidden_file_directory"), readFieldEvs ++ [.d1FindResource fields.1])) ∧
    (policyCheck resource.type fields.2.1 fields.2.2.1 ≠ .ok () →
      ((uploadFile env requester_uuid chunks boundary file_uuid now).2.all
        (fun ev => !isExtractEv ev && !isStoreWrite ev)) = true) := by
  intro env requester_uuid chunks boundary file_uuid now fields st4 evs resource
    hscan hsome hown
  have hevs := readFields_ok_events hscan
  subst hevs
  have hnown : ¬ resource.owner_uuid ≠ requester_uuid := fun hne => hne hown
  refine ⟨?_, ?_, ?_, ?_⟩
  · intro hlook
    unfold uploadFile
    simp only [hscan, hsome]
    rw [if_neg hnown]
    simp only [policyCheck, hlook]
  · intro rules hlook hct
    unfold uploadFile
    simp only [hscan, hsome]
    rw [if_neg hnown]
    simp only [policyCheck, hlook, hct]
  · intro rules contentRules hlook hct hdir
    unfold uploadFile
    simp only [hscan, hsome]
    rw [if_neg hnown]
    simp only [policyCheck, hlook, hct, hdir]
    rw [if_neg (by simp [hdir])]
  · intro hpol
    unfold uploadFile
    simp only [hscan, hsome]
    rw [if_neg hnown]
    cases hp : policyCheck resource.type fields.2.1 fields.2.2.1 with
    | error e =>
      dsimp only
      simp [readFieldEvs, isExtractEv, isStoreWrite]
    | ok u =>
      cases u
      exact absurd hp hpol

/-- Witness: a resource of type `cape` (absent from the policy table) makes
the sample upload fail with `undefined_resource_type` after only the field
reads and the resource fetch. -/
theorem uploadFile_policy_order_witness :
    uploadFile envBadType uOwner [bodyS] bdyS (("fu").toList) 0 =
      (.error ("undefined_resource_type"),
        readFieldEvs ++ [.d1FindResource (("r1").toList)]) := by
  have h := uploadFile_policy_order envBadType uOwner [bodyS] bdyS (("fu").toList) 0
    fieldsS stS4 readFieldEvs ⟨("r1").toList, uOwner, ("cape").toList⟩
    readFields_bodyS (by decide) (by decide)
  exact h.1 (by decide)

/-- C4: the extractor never hands back more than `MAX_FILE_SIZE` bytes; the
moment the running byte counter would pass the ceiling the loop aborts with
`file_too_large`; and when extraction fails the coordinator reports that
error with a trace containing no blob put and no metadata insert. -/
theorem uploadFile_size_ceiling :
    (∀ (boundary fieldName content_type : Str) (st : ScanState) (bytes : List Nat)
      (st2 : ScanState),
      extractAndVerifyFile boundary fieldName content_type st = .ok (bytes, st2) →
      bytes.length ≤ MAX_FILE_SIZE) ∧
    (∀ (boundary tgt : Str) (chunks : List Str) (buffer : Str) (acc : ExtractAcc),
      MAX_FILE_SIZE < acc.bytesRead + (encodeUtf8 (chunkTextOf boundary buffer)).length →
      extractLoop boundary tgt chunks buffer true acc = .error ("file_too_large")) ∧
    (∀ (env : Env) (requester_uuid : Str) (chunks : List Str) (boundary file_uuid : Str)
      (now : Nat) (fields : Str × Str × Str × Str) (st4 : ScanState) (evs : List Event)
      (resource : Resource) (e : String),
      readFields boundary ⟨[], chunks⟩ = (.ok (fields, st4), evs) →
      fetchResource env fields.1 = some resource →
      resource.owner_uuid = requester_uuid →
      policyCheck resource.type fields.2.1 fields.2.2.1 = .ok () →
      extractAndVerifyFile boundary fFile fields.2.1 st4 = .error e →
      uploadFile env requester_uuid chunks boundary file_uuid now =
        (.error e, readFieldEvs ++ [.d1FindResource fields.1, .extractFile]) ∧
      ((uploadFile env requester_uuid chunks boundary file_uuid now).2.all
        (fun ev => !isStoreWrite ev)) = true) := by
  refine ⟨?_, ?_, ?_⟩
  · intro boundary fieldName content_type st bytes st2 h
    exact extractAndVerifyFile_ok_size h
  · intro boundary tgt chunks buffer acc h
    exact extractLoop_too_large chunks h
  · intro env requester_uuid chunks boundary file_uuid now fields st4 evs resource e
      hscan hsome hown hpol hext
    have hevs := readFields_ok_events hscan
    subst hevs
    have hnown : ¬ resource.owner_uuid ≠ requester_uuid := fun hne => hne hown
    have hres : uploadFile env requester_uuid chunks boundary file_uuid now =
        (.error e, readFieldEvs ++ [.d1FindResource fields.1, .extractFile]) := by
      unfold uploadFile
      simp only [hscan, hsome]
      rw [if_neg hnown]
      simp only [hpol, hext]
    refine ⟨hres, ?_⟩
    rw [hres]
    simp [readFieldEvs, isStoreWrite]

/-- Witness: the sample JSON upload's extracted payload is four bytes (within
the ceiling); a step already at the ceiling aborts immediately with
`file_too_large`; and a declared-png upload carrying JSON fails with
`file_type_mismatch` and performs no store write. -/
theorem uploadFile_size_ceiling_witness :
    ([0x7b, 0x7d, 13, 10] : List Nat).length ≤ MAX_FILE_SIZE ∧
    extractLoop bdyS (targetHeader fFile) [] (("xx").toList) true ⟨MAX_FILE_SIZE, [], []⟩ =
      .error ("file_too_large") ∧
    uploadFile envOk uOwner [bodyPngMismatch] bdyS (("fu").toList) 0 =
      (.error ("file_type_mismatch"),
        readFieldEvs ++ [.d1FindResource (("r1").toList), .extractFile]) := by
  refine ⟨?_, ?_, ?_⟩
  · exact uploadFile_size_ceiling.1 bdyS fFile fieldsS.2.1 stS4 _ _ extract_stS4_json
  · exact uploadFile_size_ceiling.2.1 bdyS (targetHeader fFile) [] (("xx").toList)
      ⟨MAX_FILE_SIZE, [], []⟩ (by decide)
  · have h := uploadFile_size_ceiling.2.2 envOk uOwner [bodyPngMismatch] bdyS
      (("fu").toList) 0
      ((("r1").toList, ("image/png").toList, ("textures/item/carved_pumpkin").toList,
        ("p.png").toList))
      stS4 readFieldEvs resourceS "file_type_mismatch"
      readFields_bodyPngMismatch (by decide) (by decide) (by decide) extract_stS4_png
    exact h.1

/-- C6: on a fully successful upload the coordinator returns `ok` with no
value (the JS function returns `undefined`), so the 201 response body is the
empty JSON object for EVERY generated file identifier — the response cannot
carry the new file id. -/
theorem uploadFile_success_response :
    ∀ (file_uuid : Str) (now : Nat),
      (uploadFile envOk uOwner [bodyS] bdyS file_uuid now).1 = .ok () ∧
      (handleUploadFile envOk uOwner [bodyS] bdyS file_uuid now).1 =
        ⟨201, "\x7b\x7d"⟩ := by
  intro file_uuid now
  have hres : (uploadFile envOk uOwner [bodyS] bdyS file_uuid now).1 = .ok () := by
    unfold uploadFile
    simp only [readFields_bodyS]
    have hfetch : fetchResource envOk fieldsS.1 = some resourceS := by decide
    simp only [hfetch]
    rw [if_neg (by decide)]
    have hpol : policyCheck resourceS.type fieldsS.2.1 fieldsS.2.2.1 = .ok () := by decide
    simp only [hpol]
    simp only [extract_stS4_json]
    simp [uploadFileToR2, envOk]
  refine ⟨hres, ?_⟩
  unfold handleUploadFile
  simp only [hres]

/-- C1, amended: after a successful blob put, a failing metadata insert
triggers the compensating blob delete; when that delete succeeds the reported
error is `d1_upload_failed`, but when the delete itself throws, its own error
escapes (the code does not wrap the rollback delete in a try/catch) and
replaces `d1_upload_failed`. -/
theorem uploadFileToR2_compensation :
    ∀ (env : Env) (requester_uuid : Str) (file_bytes : List Nat)
      (resource_uuid file_directory file_name content_type file_uuid : Str) (now : Nat),
    env.putFails (resource_uuid ++ [Char.ofNat 47] ++ file_uuid) = false →
    env.insertFails = true →
    (env.blobDeleteFails (resource_uuid ++ [Char.ofNat 47] ++ file_uuid) = false →
      uploadFileToR2 env requester_uuid file_bytes resource_uuid file_directory file_name
          content_type file_uuid now =
        (.error ("d1_upload_failed"),
          [.r2Put (resource_uuid ++ [Char.ofNat 47] ++ file_uuid) file_bytes,
            .d1InsertFile ⟨resource_uuid, file_uuid, file_directory, file_name,
              resource_uuid ++ [Char.ofNat 47] ++ file_uuid, content_type, requester_uuid,
              now, now⟩,
            .r2Delete (resource_uuid ++ [Char.ofNat 47] ++ file_uuid)])) ∧
    (env.blobDeleteFails (resource_uuid ++ [Char.ofNat 47] ++ file_uuid) = true →
      uploadFileToR2 env requester_uuid file_bytes resource_uuid file_directory file_name
          content_type file_uuid now =
        (.error env.blobDeleteErrMsg,
          [.r2Put (resource_uuid ++ [Char.ofNat 47] ++ file_uuid) file_bytes,
            .d1InsertFile ⟨resource_uuid, file_uuid, file_directory, file_name,
              resource_uuid ++ [Char.ofNat 47] ++ file_uuid, content_type, requester_uuid,
              now, now⟩,
            .r2Delete (resource_uuid ++ [Char.ofNat 47] ++ file_uuid)])) := by
  intro env requester_uuid file_bytes resource_uuid file_directory file_name content_type
    file_uuid now hput hins
  have hput2 : env.putFails (resource_uuid ++ Char.ofNat 47 :: file_uuid) = false := by
    simpa using hput
  constructor
  · intro hdel
    have hdel2 : env.blobDeleteFails (resource_uuid ++ Char.ofNat 47 :: file_uuid) = false := by
      simpa using hdel
    simp [uploadFileToR2, hput2, hins, hdel2]
  · intro hdel
    have hdel2 : env.blobDeleteFails (resource_uuid ++ Char.ofNat 47 :: file_uuid) = true := by
      simpa using hdel
    simp [uploadFileToR2, hput2, hins, hdel2]

/-- C1, counterexample to the swallowing: with a failing insert AND a failing
compensating delete, the reported error is the delete's own platform error,
not `d1_upload_failed`. -/
theorem uploadFileToR2_swallow_counterexample :
    (uploadFileToR2 envInsDelFail uOwner [1, 2] (("r1").toList)
      (("models/item/carved_pumpkin").toList) (("m.json").toList)
      (("application/json").toList) (("f1").toList) 7).1 =
        .error ("r2_delete_exception") ∧
    ("r2_delete_exception" : String) ≠ "d1_upload_failed" :=
  ⟨by decide, by decide⟩

/-- Witness: both compensation outcomes at concrete environments. -/
theorem uploadFileToR2_compensation_witness :
    uploadFileToR2 envInsFail uOwner [1, 2] (("r1").toList)
      (("models/item/carved_pumpkin").toList) (("m.json").toList)
      (("application/json").toList) (("f1").toList) 7 =
      (.error ("d1_upload_failed"),
        [.r2Put (("r1").toList ++ [Char.ofNat 47] ++ ("f1").toList) [1, 2],
          .d1InsertFile ⟨("r1").toList, ("f1").toList,
            ("models/item/carved_pumpkin").toList, ("m.json").toList,
            ("r1").toList ++ [Char.ofNat 47] ++ ("f1").toList,
            ("application/json").toList, uOwner, 7, 7⟩,
          .r2Delete (("r1").toList ++ [Char.ofNat 47] ++ ("f1").toList)]) ∧
    uploadFileToR2 envInsDelFail uOwner [1, 2] (("r1").toList)
      (("models/item/carved_pumpkin").toList) (("m.json").toList)
      (("application/json").toList) (("f1").toList) 7 =
      (.error ("r2_delete_exception"),
        [.r2Put (("r1").toList ++ [Char.ofNat 47] ++ ("f1").toList) [1, 2],
          .d1InsertFile ⟨("r1").toList, ("f1").toList,
            ("models/item/carved_pumpkin").toList, ("m.json").toList,
            ("r1").toList ++ [Char.ofNat 47] ++ ("f1").toList,
            ("application/json").toList, uOwner, 7, 7⟩,
          .r2Delete (("r1").toList ++ [Char.ofNat 47] ++ ("f1").toList)]) := by
  constructor
  · exact (uploadFileToR2_compensation envInsFail uOwner [1, 2] (("r1").toList)
      (("models/item/carved_pumpkin").toList) (("m.json").toList)
      (("application/json").toList) (("f1").toList) 7 rfl rfl).1 rfl
  · exact (uploadFileToR2_compensation envInsDelFail uOwner [1, 2] (("r1").toList)
      (("models/item/carved_pumpkin").toList) (("m.json").toList)
      (("application/json").toList) (("f1").toList) 7 rfl rfl).2 rfl

theorem bool_eq_false_of_ne_true {b : Bool} (h : ¬ b = true) : b = false := by
  revert h
  cases b <;> simp

theorem deleteSweep_row_event {env : Env} {ruuid : Str} :
    ∀ (fs : List StoredFile) (r2 f2 : Str),
    Event.d1DeleteFileRow r2 f2 ∈ (deleteSweep env ruuid fs).2 →
    r2 = ruuid ∧ ∃ file ∈ fs, file.file_uuid = f2 ∧
      env.blobDeleteFails file.r2_key = false := by
  intro fs
  induction fs with
  | nil =>
    intro r2 f2 h
    simp [deleteSweep] at h
  | cons file rest ih =>
    intro r2 f2 h
    by_cases hb : env.blobDeleteFails file.r2_key = true
    · simp [deleteSweep, deleteFileFromR2, hb] at h
    · have hbf := bool_eq_false_of_ne_true hb
      cases hrow : env.rowDeleteFails with
      | true =>
        simp [deleteSweep, deleteFileFromR2, hbf, hrow] at h
        rcases h with ⟨hr, hf⟩
        exact ⟨hr, file, List.mem_cons_self _ _, hf.symm, hbf⟩
      | false =>
        simp [deleteSweep, deleteFileFromR2, hbf, hrow] at h
        rcases h with ⟨hr, hf⟩ | hrest
        · exact ⟨hr, file, List.mem_cons_self _ _, hf.symm, hbf⟩
        · rcases ih r2 f2 hrest with ⟨hr, file2, hmem, hfe, hbd⟩
          exact ⟨hr, file2, List.mem_cons_of_mem _ hmem, hfe, hbd⟩

theorem deleteSweep_no_resource_row {env : Env} {ruuid : Str} :
    ∀ (fs : List StoredFile) (x : Str),
    Event.d1DeleteResourceRow x ∉ (deleteSweep env ruuid fs).2 := by
  intro fs
  induction fs with
  | nil =>
    intro x h
    simp [deleteSweep] at h
  | cons file rest ih =>
    intro x h
    by_cases hb : env.blobDeleteFails file.r2_key = true
    · simp [deleteSweep, deleteFileFromR2, hb] at h
    · have hbf := bool_eq_false_of_ne_true hb
      cases hrow : env.rowDeleteFails with
      | true => simp [deleteSweep, deleteFileFromR2, hbf, hrow] at h
      | false =>
        simp [deleteSweep, deleteFileFromR2, hbf, hrow] at h
        exact ih x h

/-- C7: in every deletion path the relational row is touched only after the
blob delete succeeded: a failing blob delete aborts the single-file delete
before the row (leaving both intact); the successful path orders the row
delete strictly after the blob delete; a row-delete event in the bulk sweep
certifies its file's blob delete succeeded; and the resource's own metadata
row is only ever deleted when the whole file sweep succeeded. -/
theorem deletion_order :
    (∀ (env : Env) (requester_uuid resource_uuid file_uuid : Str) (file : StoredFile),
      fetchFile env resource_uuid file_uuid = some file →
      file.uploaded_by = requester_uuid →
      (env.blobDeleteFails file.r2_key = true →
        deleteFile env requester_uuid resource_uuid file_uuid =
          (.error ("r2_delete_failed"),
            [.d1FindFile resource_uuid file_uuid, .r2Delete file.r2_key])) ∧
      (env.blobDeleteFails file.r2_key = false →
        (deleteFile env requester_uuid resource_uuid file_uuid).2 =
          [.d1FindFile resource_uuid file_uuid, .r2Delete file.r2_key,
            .d1DeleteFileRow resource_uuid file_uuid])) ∧
    (∀ (env : Env) (resource_uuid r2 f2 : Str),
      Event.d1DeleteFileRow r2 f2 ∈ (deleteResourceFiles env resource_uuid).2 →
      r2 = resource_uuid ∧ ∃ file ∈ env.files, file.resource_uuid = resource_uuid ∧
        file.file_uuid = f2 ∧ env.blobDeleteFails file.r2_key = false) ∧
    (∀ (env : Env) (resource_uuid requester_uuid : Str),
      Event.d1DeleteResourceRow resource_uuid ∈
        (deleteResource env resource_uuid requester_uuid).2 →
      (deleteResourceFiles env resource_uuid).1 = .ok ()) := by
  refine ⟨?_, ?_, ?_⟩
  · intro env requester_uuid resource_uuid file_uuid file hfetch hupl
    have hnown : ¬ file.uploaded_by ≠ requester_uuid := fun hne => hne hupl
    constructor
    · intro hb
      unfold deleteFile
      simp only [hfetch]
      rw [if_neg hnown]
      simp [deleteFileFromR2, hb]
    · intro hb
      unfold deleteFile
      simp only [hfetch]
      rw [if_neg hnown]
      cases hrow : env.rowDeleteFails with
      | true => simp [deleteFileFromR2, hb, hrow]
      | false => simp [deleteFileFromR2, hb, hrow]
  · intro env resource_uuid r2 f2 h
    unfold deleteResourceFiles at h
    by_cases hemp : (env.files.filter (fun f => f.resource_uuid == resource_uuid)).isEmpty
    · rw [if_pos hemp] at h
      simp at h
    · rw [if_neg hemp] at h
      simp only [List.mem_append, List.mem_singleton] at h
      rcases h with h1 | hrest
      · cases h1
      · rcases deleteSweep_row_event _ r2 f2 hrest with ⟨hr, file, hmem, hfe, hbd⟩
        rcases List.mem_filter.mp hmem with ⟨hmem2, hru⟩
        exact ⟨hr, file, hmem2, by simpa using hru, hfe, hbd⟩
  · intro env resource_uuid requester_uuid h
    unfold deleteResource at h
    cases hfetch : fetchResource env resource_uuid with
    | none =>
      rw [hfetch] at h
      simp at h
    | some resource =>
      simp only [hfetch] at h
      by_cases hown : resource.owner_uuid ≠ requester_uuid
      · rw [if_pos hown] at h
        simp at h
      · rw [if_neg hown] at h
        rcases hdrf : deleteResourceFiles env resource_uuid with ⟨res, evs⟩
        rw [hdrf] at h
        cases res with
        | error e =>
          exfalso
          simp only [List.mem_append, List.mem_singleton] at h
          rcases h with h1 | hrest
          · cases h1
          · unfold deleteResourceFiles at hdrf
            by_cases hemp :
                (env.files.filter (fun f => f.resource_uuid == resource_uuid)).isEmpty
            · rw [if_pos hemp] at hdrf
              cases hdrf
            · rw [if_neg hemp] at hdrf
              simp only [Prod.mk.injEq] at hdrf
              rw [← hdrf.2] at hrest
              simp only [List.mem_append, List.mem_singleton] at hrest
              rcases hrest with h1 | hrest
              · cases h1
              · exact deleteSweep_no_resource_row _ _ hrest
        | ok u =>
          cases u
          rfl

/-- Witness for the deletion ordering: the single-file delete against a
failing blob store aborts before the row; against a healthy store the row
delete follows the blob delete; the sweep row event certifies its blob
delete; and the healthy resource delete implies the sweep succeeded. -/
theorem deletion_order_witness :
    deleteFile envFileDelFail (("u2").toList) (("r1").toList) (("f1").toList) =
      (.error ("r2_delete_failed"),
        [.d1FindFile (("r1").toList) (("f1").toList), .r2Delete (("r1/f1").toList)]) ∧
    (deleteFile envFile (("u2").toList) (("r1").toList) (("f1").toList)).2 =
      [.d1FindFile (("r1").toList) (("f1").toList), .r2Delete (("r1/f1").toList),
        .d1DeleteFileRow (("r1").toList) (("f1").toList)] ∧
    (deleteResourceFiles envFile (("r1").toList)).1 = .ok () := by
  refine ⟨?_, ?_, ?_⟩
  · exact (deletion_order.1 envFileDelFail (("u2").toList) (("r1").toList) (("f1").toList)
      fileS (by decide) (by decide)).1 rfl
  · exact (deletion_order.1 envFile (("u2").toList) (("r1").toList) (("f1").toList)
      fileS (by decide) (by decide)).2 rfl
  · exact deletion_order.2.2 envFile (("r1").toList) uOwner (by decide)

/-- C10: single-file deletion authorizes against the row's `uploaded_by`
column and never consults the resources table: the outcome is unchanged under
any replacement of the resources table; a requester other than the uploader
gets `forbidden_action` (even the resource owner); the uploader proceeds to
the blob delete regardless of resource ownership. -/
theorem deleteFile_auth_by_uploader :
    (∀ (env : Env) (requester_uuid resource_uuid file_uuid : Str) (rs : List Resource),
      deleteFile { env with resources := rs } requester_uuid resource_uuid file_uuid =
        deleteFile env requester_uuid resource_uuid file_uuid) ∧
    (∀ (env : Env) (requester_uuid resource_uuid file_uuid : Str) (file : StoredFile),
      fetchFile env resource_uuid file_uuid = some file →
      (file.uploaded_by ≠ requester_uuid →
        deleteFile env requester_uuid resource_uuid file_uuid =
          (.error ("forbidden_action"), [.d1FindFile resource_uuid file_uuid])) ∧
      (file.uploaded_by = requester_uuid →
        (deleteFile env requester_uuid resource_uuid file_uuid).1 ≠
          .error ("forbidden_action") ∧
        Event.r2Delete file.r2_key ∈
          (deleteFile env requester_uuid resource_uuid file_uuid).2)) := by
  constructor
  · intro env requester_uuid resource_uuid file_uuid rs
    rfl
  · intro env requester_uuid resource_uuid file_uuid file hfetch
    constructor
    · intro hne
      unfold deleteFile
      simp only [hfetch]
      rw [if_pos hne]
    · intro heq
      have hnown : ¬ file.uploaded_by ≠ requester_uuid := fun hne => hne heq
      unfold deleteFile
      simp only [hfetch]
      rw [if_neg hnown]
      cases hb : env.blobDeleteFails file.r2_key with
      | true => simp [deleteFileFromR2, hb]
      | false =>
        cases hrow : env.rowDeleteFails with
        | true => simp [deleteFileFromR2, hb, hrow]
        | false => simp [deleteFileFromR2, hb, hrow]

/-- Witness: the resource owner `u1` (not the uploader) is refused, while the
uploader `u2` reaches the blob delete. -/
theorem deleteFile_auth_by_uploader_witness :
    deleteFile envFile uOwner (("r1").toList) (("f1").toList) =
      (.error ("forbidden_action"), [.d1FindFile (("r1").toList) (("f1").toList)]) ∧
    (deleteFile envFile (("u2").toList) (("r1").toList) (("f1").toList)).1 ≠
      .error ("forbidden_action") ∧
    Event.r2Delete (("r1/f1").toList) ∈
      (deleteFile envFile (("u2").toList) (("r1").toList) (("f1").toList)).2 := by
  refine ⟨?_, ?_⟩
  · exact (deleteFile_auth_by_uploader.2 envFile uOwner (("r1").toList) (("f1").toList)
      fileS (by decide)).1 (by decide)
  · exact (deleteFile_auth_by_uploader.2 envFile (("u2").toList) (("r1").toList)
      (("f1").toList) fileS (by decide)).2 (by decide)

set_option maxRecDepth 4000 in
/-- Witness for the window-bounded chunking independence: a small body whose
part header is split across two chunks satisfies the length and search
hypotheses, and the reader returns the trimmed value `val`. -/
theorem getMultipartField_window_witness :
    ((("--B\r\nContent-Disposition: form-data; name=\x22f\x22\r").toList ++
        concatL [("\n\r\nval\r\n--B--").toList]).length ≤ BUFFER_SIZE ∧
      searchField bdyS (targetHeader fC3)
          ((("--B\r\nContent-Disposition: form-data; name=\x22f\x22\r").toList ++
            concatL [("\n\r\nval\r\n--B--").toList]) : Str) =
        some ((("val").toList), (("--B--").toList)) ∧
      (("val").toList) ≠ ([] : Str)) ∧
    (∃ buf rest,
      getMultipartField bdyS fC3
          ⟨("--B\r\nContent-Disposition: form-data; name=\x22f\x22\r").toList,
            [("\n\r\nval\r\n--B--").toList]⟩ = .ok ((("val").toList), ⟨buf, rest⟩)) :=
  ⟨⟨by decide, by decide, by decide⟩,
    getMultipartField_window bdyS fC3
      ⟨("--B\r\nContent-Disposition: form-data; name=\x22f\x22\r").toList,
        [("\n\r\nval\r\n--B--").toList]⟩
      (("val").toList) (("--B--").toList) (by decide) (by decide) (by decide)⟩

end PackSyncr
